import Mathlib

/-!
# Verification of the Agent Foundry model server

A shallow embedding, in Lean 4, of the lifecycle/dispatch layer of the
`services/model-server` application: the artifact store (`app/utils/model_store.py`),
the version helpers (`app/pipeline/training.py`, `app/main.py`), the training
endpoints and hot-swap logic (`app/main.py`), the dispatch layer of the
prediction endpoints (`app/main.py`), and the genetic deployment optimizer
(`app/models/deployment_optimizer.py`).

Modelling conventions:
* Python floats are modelled as exact rationals (`ℚ`); the arithmetic the
  theorems rely on involves only small dyadic/decimal values where the float
  computation is exact or where the comparisons are robust.
* Python strings are modelled as Lean `String`/`List Char`; the helpers
  `str.split(".")`, `str.replace("v","")` and `int(str)` are re-implemented
  on `List Char` (ASCII digits; CPython additionally accepts non-ASCII
  decimal digits, which no version string in this system contains).
* The pseudo-random generator `random.Random(42)` is embedded as an explicit
  stream of unit draws threaded through the computation: each primitive call
  (`random()`, `uniform`, `randint`, `choice`) consumes one draw `u` from the
  stream, exactly in the order the source performs the calls.  The fixed seed
  means both that a single unknown-but-fixed stream underlies every run and
  that two runs consume identical streams; theorems therefore quantify over
  the stream, and determinism is expressed as agreement of any two runs fed
  the same stream.
* External collaborators that the source merely calls (scikit-learn learners,
  numpy feature matrices, the database, `joblib` serialisation, wall-clock
  time) are abstracted as parameters bundled in an `Ext` structure; all
  theorems quantify over them.  Serialized learner state is an opaque blob.
-/

namespace AgentFoundry
/-! ## Python string/int helpers

`int(s)` in CPython strips whitespace, accepts an optional sign, and then a
nonempty digit sequence in which single underscores may appear between
digits.  `ValueError` is modelled as `none`. -/

/-- One decimal digit value of an ASCII digit character. -/
def digitVal (c : Char) : ℕ := c.toNat - 48

/-- Consume the remaining characters of a digit sequence, allowing single
underscores between digits, accumulating the value. -/
def pyDigitsCore : List Char → ℕ → Option ℕ
  | [], acc => some acc
  | '_' :: c :: rest, acc =>
      if c.isDigit then pyDigitsCore rest (acc * 10 + digitVal c) else none
  | c :: rest, acc =>
      if c.isDigit then pyDigitsCore rest (acc * 10 + digitVal c) else none

/-- Parse a nonempty digit sequence (underscores allowed between digits). -/
def pyDigits : List Char → Option ℕ
  | [] => none
  | '_' :: _ => none
  | c :: rest => if c.isDigit then pyDigitsCore rest (digitVal c) else none

/-- Strip leading and trailing whitespace, as `int(str)` does. -/
def stripWhitespace (cs : List Char) : List Char :=
  ((cs.dropWhile Char.isWhitespace).reverse.dropWhile Char.isWhitespace).reverse

/-- `int(s)` for a Python string: `some n` on success, `none` on `ValueError`. -/
def pyInt (cs : List Char) : Option ℤ :=
  match stripWhitespace cs with
  | '+' :: rest => (pyDigits rest).map Int.ofNat
  | '-' :: rest => (pyDigits rest).map fun n => -(n : ℤ)
  | other => (pyDigits other).map Int.ofNat

/-- Worker for `s.split(".")`: first component plus remaining components. -/
def splitDotAux : List Char → List Char × List (List Char)
  | [] => ([], [])
  | '.' :: rest => ([], (splitDotAux rest).1 :: (splitDotAux rest).2)
  | c :: rest => (c :: (splitDotAux rest).1, (splitDotAux rest).2)

/-- `s.split(".")` on character lists: splits at every `'.'`, keeping empty
components; the result is always nonempty. -/
def splitDot (cs : List Char) : List (List Char) :=
  (splitDotAux cs).1 :: (splitDotAux cs).2

/-- `".".join(parts)` on character lists. -/
def joinDot : List (List Char) → List Char
  | [] => []
  | [g] => g
  | g :: gs => g ++ '.' :: joinDot gs

/-! ## `ModelStore._pick_latest` (`app/utils/model_store.py`, lines 172-186) -/

/-- `_version_key`: `v.replace("v", "").split(".")`, each component parsed with
`int`, `ValueError` replaced by `0`.  `replace("v","")` deletes every `'v'`. -/
def versionKey (v : String) : List ℤ :=
  (splitDot (v.data.filter fun c => c ≠ 'v')).map fun p => (pyInt p).getD 0

/-- Python's `<` on integer tuples: lexicographic, a strict prefix is smaller. -/
def keyLt : List ℤ → List ℤ → Bool
  | [], [] => false
  | [], _ :: _ => true
  | _ :: _, [] => false
  | a :: as, b :: bs => a < b || (a = b && keyLt as bs)

/-- `max(versions, key=_version_key)`: scan left to right, replacing the
current maximum only on strictly greater key (so the first maximum wins);
`max` on an empty sequence raises, modelled as `none`. -/
def pickLatest (versions : List String) : Option String :=
  match versions with
  | [] => none
  | v :: vs =>
      some (vs.foldl (fun best w =>
        if keyLt (versionKey best) (versionKey w) then w else best) v)

/-! ## `_next_version` (`app/pipeline/training.py` lines 191-201; the
identical helper also appears in `app/main.py` lines 523-532) -/

/-- Bump the patch component: split on `"."`, `int`-parse the final component,
increment it and re-join; `None` current version or `ValueError` on the final
component yields `"1.0.0"`. -/
def nextVersion (current : Option String) : String :=
  match current with
  | none => "1.0.0"
  | some s =>
      let parts := splitDot s.data
      match pyInt (parts.getLastD []) with
      | none => "1.0.0"
      | some n => ⟨joinDot (parts.dropLast ++ [(toString (n + 1)).data])⟩

/-! ### Characters of decimal representations -/

/-- Every character `Nat.digitChar` can emit. -/
def reprChars : List Char := "0123456789abcdef*".data

/-! ## Capabilities (`app/models/compliance_gap.py`, `regulatory_predictor.py`,
`drift_detector.py`)

The external scikit-learn learners are out of scope (consumed, not
reimplemented): a fitted learner, as serialized to `model.joblib` by
`joblib.dump` and restored bit-for-bit by `joblib.load`, is an opaque blob.
Likewise the drift detector's `stats.joblib` (its `_means`/`_stds`), raw
records, numpy feature matrices/label vectors and fallback prediction rows
are opaque values produced and consumed by abstracted collaborators. -/

/-- Opaque serialized learner state (`model.joblib` contents). -/
abbrev Blob := ℕ

/-- Opaque drift statistics (`stats.joblib` contents: `_means`/`_stds`). -/
abbrev StatsBlob := ℕ

/-- Opaque raw record (a Python dict row). -/
abbrev Rec := ℕ

/-- Opaque numpy feature matrix. -/
abbrev Feats := ℕ

/-- Opaque numpy label vector. -/
abbrev Labels := ℕ

/-- Opaque prediction-output row. -/
abbrev Pred := ℕ

/-- A metrics mapping (metric name to float). -/
abbrev Metrics := List (String × ℚ)

/-- `ComplianceGapModel` instance state (`compliance_gap.py`): the wrapped
Random-Forest learner, `version` (never reassigned after `__init__`),
`is_loaded` and `metrics`. -/
structure ComplianceGapModel where
  model : Option Blob
  version : String
  is_loaded : Bool
  metrics : Metrics
deriving DecidableEq

/-- `ComplianceGapModel.__init__`. -/
def ComplianceGapModel.init : ComplianceGapModel :=
  { model := none, version := "1.0.0", is_loaded := false, metrics := [] }

/-- `ComplianceGapModel.load`: restore the learner from `model.joblib` when
the file exists and mark the instance loaded; otherwise leave it unchanged. -/
def ComplianceGapModel.load (m : ComplianceGapModel) (modelFile : Option Blob) :
    ComplianceGapModel :=
  match modelFile with
  | some b => { m with model := some b, is_loaded := true }
  | none => m

/-- `RegulatoryPredictor` instance state (`regulatory_predictor.py`). -/
structure RegulatoryPredictor where
  model : Option Blob
  version : String
  is_loaded : Bool
  metrics : Metrics
deriving DecidableEq

/-- `RegulatoryPredictor.__init__`. -/
def RegulatoryPredictor.init : RegulatoryPredictor :=
  { model := none, version := "1.0.0", is_loaded := false, metrics := [] }

/-- `RegulatoryPredictor.load`. -/
def RegulatoryPredictor.load (m : RegulatoryPredictor) (modelFile : Option Blob) :
    RegulatoryPredictor :=
  match modelFile with
  | some b => { m with model := some b, is_loaded := true }
  | none => m

/-- `DriftDetector` instance state (`drift_detector.py`): the wrapped
Isolation-Forest learner, plus the `_means`/`_stds` running statistics for
the fallback path (`none` when unset). -/
structure DriftDetector where
  model : Option Blob
  version : String
  is_loaded : Bool
  metrics : Metrics
  stats : Option StatsBlob
deriving DecidableEq

/-- `DriftDetector.__init__`. -/
def DriftDetector.init : DriftDetector :=
  { model := none, version := "1.0.0", is_loaded := false, metrics := [],
    stats := none }

/-- `DriftDetector.load`: restore learner and statistics from whichever of
`model.joblib` / `stats.joblib` exist. -/
def DriftDetector.load (d : DriftDetector) (modelFile : Option Blob)
    (statsFile : Option StatsBlob) : DriftDetector :=
  let d := match modelFile with
    | some b => { d with model := some b, is_loaded := true }
    | none => d
  match statsFile with
  | some s => { d with stats := some s }
  | none => d

/-- A live capability instance, tagged by its Python class. -/
inductive Capability
  | compliance (m : ComplianceGapModel)
  | regulatory (m : RegulatoryPredictor)
  | drift (d : DriftDetector)
deriving DecidableEq

/-- `type(model).__name__`, as written into the metadata sidecar. -/
def Capability.className : Capability → String
  | .compliance _ => "ComplianceGapModel"
  | .regulatory _ => "RegulatoryPredictor"
  | .drift _ => "DriftDetector"

/-! ## `ModelStore` (`app/utils/model_store.py`)

The `{model_dir}/{name}/{version}/` tree is modelled as nested association
lists (insertion order stands in for the unspecified `os.listdir` order).
`metadata.json` is either a parsed JSON object (whose `model_class` key may
be absent) or corrupt text on which `json.load` raises. -/

/-- Parsed contents of a `metadata.json` sidecar.  `model_class := none`
models a JSON object without the `"model_class"` key. -/
structure Metadata where
  name : String
  version : String
  metrics : Metrics
  model_class : Option String
deriving DecidableEq

/-- A `metadata.json` file on disk: either valid JSON or text on which
`json.load` raises `JSONDecodeError`. -/
inductive MetadataFile
  | corrupt
  | parsed (md : Metadata)
deriving DecidableEq

/-- One `{model_dir}/{name}/{version}/` directory. -/
structure VersionDir where
  modelFile : Option Blob
  statsFile : Option StatsBlob
  metadata : Option MetadataFile
deriving DecidableEq

/-- A `{name}` directory: version subdirectories in listing order. -/
abbrev NameDir := List (String × VersionDir)

/-- The `{model_dir}` tree: name directories in listing order. -/
abbrev Store := List (String × NameDir)

/-- Association-list lookup (first match). -/
def alistFind {α : Type} (k : String) (l : List (String × α)) : Option α :=
  (l.find? fun p => p.1 = k).map (·.2)

/-- Association-list update: replace the first binding of `k`, or append a
new binding (a freshly created directory lists last). -/
def alistSet {α : Type} (k : String) (v : α) : List (String × α) → List (String × α)
  | [] => [(k, v)]
  | (k', v') :: rest =>
      if k' = k then (k, v) :: rest else (k', v') :: alistSet k v rest

/-- Look up `{name}/{version}` in the tree (`os.path.isdir(version_dir)`:
`none` when the name directory or the version directory is absent). -/
def storeDir (store : Store) (name version : String) : Option VersionDir :=
  (alistFind name store).bind (alistFind version)

/-- `model.save(version_dir)`: each class dumps `model.joblib` only when its
learner is present; the drift detector additionally dumps `stats.joblib`
when its statistics are present.  Files already in the directory are kept. -/
def Capability.writeFiles : Capability → VersionDir → VersionDir
  | .compliance m, dir =>
      { dir with modelFile := match m.model with
          | some b => some b
          | none => dir.modelFile }
  | .regulatory m, dir =>
      { dir with modelFile := match m.model with
          | some b => some b
          | none => dir.modelFile }
  | .drift d, dir =>
      { dir with
        modelFile := match d.model with
          | some b => some b
          | none => dir.modelFile,
        statsFile := match d.stats with
          | some s => some s
          | none => dir.statsFile }

/-- `ModelStore.save_model`: create (or reuse) the version directory, let the
capability persist its binary state, write the metadata sidecar with the
class-name discriminator, and return the version-directory path (rendered
here relative to `model_dir`). -/
def save_model (store : Store) (cap : Capability) (name version : String)
    (metrics : Metrics) : Store × String :=
  let dir := (storeDir store name version).getD
    { modelFile := none, statsFile := none, metadata := none }
  let dir := cap.writeFiles dir
  let md : Metadata :=
    { name := name, version := version, metrics := metrics,
      model_class := some cap.className }
  let dir := { dir with metadata := some (MetadataFile.parsed md) }
  let nameDir := (alistFind name store).getD []
  (alistSet name (alistSet version dir nameDir) store, name ++ "/" ++ version)

/-- `ModelStore.get_latest_version`: `none` when the name directory is absent
or holds no version subdirectories, else the `_pick_latest` maximum. -/
def get_latest_version (store : Store) (name : String) : Option String :=
  match alistFind name store with
  | none => none
  | some nameDir => pickLatest (nameDir.map (·.1))

/-- Resolution of the `version` argument of `load_model`: `"latest"` is
replaced by `get_latest_version`. -/
def resolveVersion (store : Store) (name version : String) : Option String :=
  if version = "latest" then get_latest_version store name else some version

/-- `ModelStore.load_model`.  Returns `Except.error` exactly where the Python
code lets an exception escape (`json.load` on corrupt metadata); `.ok none`
is the "no artifact" result. -/
def load_model (store : Store) (name : String) (version : String) :
    Except String (Option Capability) :=
  match resolveVersion store name version with
  | none => .ok none
  | some v =>
    match storeDir store name v with
    | none => .ok none
    | some dir =>
      match dir.metadata with
      | none => .ok none
      | some .corrupt => .error "JSONDecodeError"
      | some (.parsed md) =>
        if md.model_class.getD "" = "ComplianceGapModel" then
          .ok (some (.compliance (ComplianceGapModel.init.load dir.modelFile)))
        else if md.model_class.getD "" = "RegulatoryPredictor" then
          .ok (some (.regulatory (RegulatoryPredictor.init.load dir.modelFile)))
        else
          .ok none

/-- The drift-hydration step of `lifespan` (`app/main.py` lines 94-97):
attempt `load_model("drift-detector", "latest")` and replace the default
instance only when a `DriftDetector` came back. -/
def lifespanDrift (store : Store) (current : DriftDetector) :
    Except String DriftDetector := do
  let loaded ← load_model store "drift-detector" "latest"
  match loaded with
  | some (.drift d) => return d
  | _ => return current

/-! ### A store with a malformed metadata sidecar (for claim C2) -/

/-- A store whose only artifact directory carries an unparseable
`metadata.json`. -/
def corruptMetadataStore : Store :=
  [("m", [("1", { modelFile := none, statsFile := none,
                  metadata := some MetadataFile.corrupt })])]

/-! ### Well-tagged drift artifacts (for claim C10) -/

/-- Every version directory stored under `"drift-detector"` carries a parsed
metadata sidecar whose discriminator is the class name `"DriftDetector"` —
the shape `save_model` leaves behind for every drift artifact. -/
def driftArtifactsWellTagged (store : Store) : Prop :=
  ∀ v dir, storeDir store "drift-detector" v = some dir →
    ∃ md, dir.metadata = some (MetadataFile.parsed md) ∧
      md.model_class = some "DriftDetector"

/-! ## Training pipeline (`app/pipeline/training.py`) and training endpoints
(`app/main.py`)

External collaborators are bundled in `Ext` and quantified over: the
scikit-learn learners (`fit` produces an opaque fitted blob, evaluation
produces an opaque metrics mapping), the feature/label transforms of
`app/pipeline/etl.py` / `features.py` (numpy matrices are opaque), and the
fixed-seed synthetic data generators (numpy's seeded PRNG is external; only
the fact that each generator yields one fixed list of rows matters here).
Wall-clock durations (`training_time_s`, `inference_time_ms`) are omitted.
Exceptions are modelled with `Except`: a training endpoint's `try/except`
surfaces any pipeline exception as an error response.  The only fallible
pipeline step exercised by the claims is data extraction, which precedes
every filesystem write, so representing a failed run as leaving the store
unchanged is faithful for the runs considered here. -/

/-- The abstracted external collaborators. -/
structure Ext where
  rfFit : Feats → Labels → Blob
  rfMetrics : Feats → Labels → Metrics
  gbFit : Feats → Labels → Blob
  gbMetrics : Feats → Labels → Metrics
  ifFit : List Rec → Blob
  ifStats : List Rec → StatsBlob
  gapTransform : List Rec → Feats × Labels
  predTransform : List Rec → Feats × Labels
  syntheticCompliance : List Rec
  syntheticRegulatory : List Rec
  syntheticDrift : List Rec

/-- `ComplianceGapModel.train`: fit a fresh Random Forest, record metrics,
mark loaded; returns the updated instance and its metrics. -/
def ComplianceGapModel.train (ext : Ext) (m : ComplianceGapModel)
    (features : Feats) (labels : Labels) : ComplianceGapModel × Metrics :=
  let m' := { m with model := some (ext.rfFit features labels),
                     metrics := ext.rfMetrics features labels,
                     is_loaded := true }
  (m', ext.rfMetrics features labels)

/-- `RegulatoryPredictor.train` (the Gradient-Boosting MVP backend;
`USE_NEURAL_MODEL` is `False`). -/
def RegulatoryPredictor.train (ext : Ext) (m : RegulatoryPredictor)
    (sequences : Feats) (labels : Labels) : RegulatoryPredictor × Metrics :=
  let m' := { m with model := some (ext.gbFit sequences labels),
                     metrics := ext.gbMetrics sequences labels,
                     is_loaded := true }
  (m', ext.gbMetrics sequences labels)

/-- `DriftDetector.train`: fit the Isolation Forest, store the running
statistics for the fallback path, mark loaded, record the concrete metrics
the source builds (`training_samples`, `contamination`, `feature_count`). -/
def DriftDetector.train (ext : Ext) (d : DriftDetector) (data : List Rec) :
    DriftDetector × Metrics :=
  let metrics : Metrics :=
    [("training_samples", (data.length : ℚ)),
     ("contamination", 1 / 20),
     ("feature_count", 5)]
  ({ d with model := some (ext.ifFit data),
            stats := some (ext.ifStats data),
            is_loaded := true,
            metrics := metrics }, metrics)

/-- The per-kind training result (`training_time_s` omitted: wall clock). -/
structure TrainResult where
  model_name : String
  version : String
  metrics : Metrics
  artifact_path : String
deriving DecidableEq

/-- `TrainingOrchestrator.train_compliance_gap_model`: extract (falling back
to the fixed synthetic bootstrap on zero rows), transform, train a brand-new
instance, compute the next version, persist. -/
def train_compliance_gap_model (ext : Ext)
    (extraction : Except String (List Rec)) (store : Store) :
    Except String (Store × TrainResult) :=
  match extraction with
  | .error e => .error e
  | .ok rawData =>
    let rawData := if rawData.isEmpty then ext.syntheticCompliance else rawData
    let fl := ext.gapTransform rawData
    let tm := ComplianceGapModel.init.train ext fl.1 fl.2
    let version := nextVersion (get_latest_version store "compliance-gap")
    let saved := save_model store (.compliance tm.1) "compliance-gap" version tm.2
    .ok (saved.1,
      { model_name := "compliance-gap", version := version,
        metrics := tm.2, artifact_path := saved.2 })

/-- `TrainingOrchestrator.train_regulatory_predictor`. -/
def train_regulatory_predictor_model (ext : Ext)
    (extraction : Except String (List Rec)) (store : Store) :
    Except String (Store × TrainResult) :=
  match extraction with
  | .error e => .error e
  | .ok rawData =>
    let rawData := if rawData.isEmpty then ext.syntheticRegulatory else rawData
    let fl := ext.predTransform rawData
    let tm := RegulatoryPredictor.init.train ext fl.1 fl.2
    let version := nextVersion (get_latest_version store "regulatory-predictor")
    let saved := save_model store (.regulatory tm.1) "regulatory-predictor"
      version tm.2
    .ok (saved.1,
      { model_name := "regulatory-predictor", version := version,
        metrics := tm.2, artifact_path := saved.2 })

/-- The serving runtime's shared state: the artifact tree plus the live
capability references of `app/main.py`. -/
structure ServerState where
  store : Store
  compliance : ComplianceGapModel
  regulatory : RegulatoryPredictor
  drift : DriftDetector
deriving DecidableEq

/-- Process-start state: empty artifact root, default unloaded instances. -/
def ServerState.initial : ServerState :=
  { store := [], compliance := .init, regulatory := .init, drift := .init }

/-- `POST /train/compliance-gap`: run the orchestrator, then hot-swap the
live reference with the instance `load_model` returns for the version just
persisted (only when it is a `ComplianceGapModel`). -/
def train_compliance_gap (ext : Ext) (extraction : Except String (List Rec))
    (st : ServerState) : Except String (ServerState × TrainResult) :=
  match train_compliance_gap_model ext extraction st.store with
  | .error e => .error e
  | .ok (store', result) =>
    match load_model store' "compliance-gap" result.version with
    | .error e => .error e
    | .ok loaded =>
      let st' := { st with store := store' }
      let st' := match loaded with
        | some (.compliance m) => { st' with compliance := m }
        | _ => st'
      .ok (st', result)

/-- `POST /train/regulatory-predictor`. -/
def train_regulatory_predictor (ext : Ext)
    (extraction : Except String (List Rec)) (st : ServerState) :
    Except String (ServerState × TrainResult) :=
  match train_regulatory_predictor_model ext extraction st.store with
  | .error e => .error e
  | .ok (store', result) =>
    match load_model store' "regulatory-predictor" result.version with
    | .error e => .error e
    | .ok loaded =>
      let st' := { st with store := store' }
      let st' := match loaded with
        | some (.regulatory m) => { st' with regulatory := m }
        | _ => st'
      .ok (st', result)

/-- `POST /train/drift-detector`: generate the fixed synthetic
normal-behaviour data, train a fresh detector, persist it, and assign the
trained in-memory instance to the live reference (no store reload). -/
def train_drift_detector (ext : Ext) (st : ServerState) :
    Except String (ServerState × TrainResult) :=
  let tm := DriftDetector.init.train ext ext.syntheticDrift
  let version := nextVersion (get_latest_version st.store "drift-detector")
  let saved := save_model st.store (.drift tm.1) "drift-detector" version tm.2
  .ok ({ st with store := saved.1, drift := tm.1 },
    { model_name := "drift-detector", version := version,
      metrics := tm.2, artifact_path := saved.2 })

/-- One entry of the `/retrain/all` response. -/
structure RetrainEntry where
  model_name : String
  status : String
  result : Option TrainResult
  error : Option String
deriving DecidableEq

/-- The `/retrain/all` response. -/
structure RetrainAllResponse where
  results : List RetrainEntry
  total_models : ℕ
deriving DecidableEq

/-- `POST /retrain/all`: run the three training endpoints sequentially, each
under its own `try/except`, collecting a success or failed entry per kind;
`total_models` is the length of the collected list. -/
def retrain_all_models (ext : Ext)
    (complianceExtraction regulatoryExtraction : Except String (List Rec))
    (st : ServerState) : ServerState × RetrainAllResponse :=
  let s1 := match train_compliance_gap ext complianceExtraction st with
    | .ok (st', res) =>
        (st', RetrainEntry.mk "compliance-gap" "success" (some res) none)
    | .error e =>
        (st, RetrainEntry.mk "compliance-gap" "failed" none (some e))
  let s2 := match train_regulatory_predictor ext regulatoryExtraction s1.1 with
    | .ok (st', res) =>
        (st', RetrainEntry.mk "regulatory-predictor" "success" (some res) none)
    | .error e =>
        (s1.1, RetrainEntry.mk "regulatory-predictor" "failed" none (some e))
  let s3 := match train_drift_detector ext s2.1 with
    | .ok (st', res) =>
        (st', RetrainEntry.mk "drift-detector" "success" (some res) none)
    | .error e =>
        (s2.1, RetrainEntry.mk "drift-detector" "failed" none (some e))
  (s3.1, { results := [s1.2, s2.2, s3.2],
           total_models := [s1.2, s2.2, s3.2].length })

/-- A concrete instantiation of the abstracted collaborators, used only to
evaluate the closed counterexample/witness statements. -/
def ext0 : Ext :=
  { rfFit := fun _ _ => 0, rfMetrics := fun _ _ => [],
    gbFit := fun _ _ => 0, gbMetrics := fun _ _ => [],
    ifFit := fun _ => 0, ifStats := fun _ => 0,
    gapTransform := fun _ => (0, 0), predTransform := fun _ => (0, 0),
    syntheticCompliance := [0], syntheticRegulatory := [0],
    syntheticDrift := [0] }

/-! ## Dispatch layer (`app/main.py` prediction endpoints)

The trained-prediction path (feature extraction + the external learner's
`predict`) and the deterministic fallback bodies are abstracted as function
parameters; `Except.error` stands for an exception inside the endpoint's
`try` block.  `inference_time_ms` (wall clock) is omitted from responses. -/

/-- Response of `POST /predict/compliance-gaps` (timing omitted). -/
structure ComplianceGapResponse where
  recommendations : List Pred
  model_version : String
deriving DecidableEq

/-- `predict_compliance_gaps` (`app/main.py` lines 155-192): empty input
short-circuits; a loaded capability attempts feature extraction plus trained
prediction, degrading to the rule-based fallback on any exception (including
`predict`'s `RuntimeError` when no learner is attached); an unloaded
capability goes straight to the fallback on the raw records. -/
def predict_compliance_gaps
    (extractFeatures : List Rec → Except String Feats)
    (predictTrained : Blob → Feats → Except String (List Pred))
    (predictFallback : List Rec → List Pred)
    (m : ComplianceGapModel) (complianceData : List Rec) :
    ComplianceGapResponse :=
  if complianceData.isEmpty then
    { recommendations := [], model_version := m.version }
  else if m.is_loaded then
    let attempt : Except String (List Pred) :=
      match extractFeatures complianceData with
      | .error e => .error e
      | .ok features =>
        match m.model with
        | none => .error "RuntimeError"
        | some b => predictTrained b features
    match attempt with
    | .ok recs => { recommendations := recs, model_version := m.version }
    | .error _ =>
      { recommendations := predictFallback complianceData,
        model_version := m.version }
  else
    { recommendations := predictFallback complianceData,
      model_version := m.version }

/-- Response of `POST /predict/regulatory-changes` (timing omitted). -/
structure RegulatoryPredictionResponse where
  predictions : List Pred
  model_version : String
deriving DecidableEq

/-- The default-valued row `predict_regulatory_changes` builds per
regulation id for the fallback path. -/
structure RegRow where
  regulation_id : String
  change_frequency : ℚ
  severity : ℚ
deriving DecidableEq

/-- `{"regulation_id": rid, "change_frequency": 2, "severity": 2}`. -/
def wrapRegulationId (rid : String) : RegRow :=
  { regulation_id := rid, change_frequency := 2, severity := 2 }

/-- `predict_regulatory_changes` (`app/main.py` lines 198-247).  The trained
path builds placeholder zero features from the ids and calls the learner
(abstracted together as `predictTrained`); on exception, or when unloaded,
the statistical fallback runs on the ids wrapped with default frequency and
severity. -/
def predict_regulatory_changes
    (predictTrained : Blob → List String → Except String (List Pred))
    (predictFallback : List RegRow → List Pred)
    (m : RegulatoryPredictor) (regulationIds : List String) :
    RegulatoryPredictionResponse :=
  if regulationIds.isEmpty then
    { predictions := [], model_version := m.version }
  else if m.is_loaded then
    let attempt : Except String (List Pred) :=
      match m.model with
      | none => .error "RuntimeError"
      | some b => predictTrained b regulationIds
    match attempt with
    | .ok preds => { predictions := preds, model_version := m.version }
    | .error _ =>
      { predictions := predictFallback (regulationIds.map wrapRegulationId),
        model_version := m.version }
  else
    { predictions := predictFallback (regulationIds.map wrapRegulationId),
      model_version := m.version }

/-- `DriftDetector.detect` (`drift_detector.py` lines 88-119): dispatch on
`self.model is None`; the trained path scores via the Isolation Forest, the
fallback applies the >2-standard-deviation rule using the stored statistics
(or hard-coded defaults when unset — both inside `fallbackDetect`, which
receives the raw metrics dict directly, bypassing feature extraction). -/
def DriftDetector.detect
    (ifPredict : Blob → Rec → Pred)
    (fallbackDetect : Option StatsBlob → Rec → Pred)
    (d : DriftDetector) (data : Rec) : Pred :=
  match d.model with
  | none => fallbackDetect d.stats data
  | some b => ifPredict b data

/-- `predict_drift_analysis` (`app/main.py` lines 253-273) delegates to
`DriftDetector.detect` on the raw request metrics. -/
def predict_drift_analysis
    (ifPredict : Blob → Rec → Pred)
    (fallbackDetect : Option StatsBlob → Rec → Pred)
    (d : DriftDetector) (metrics : Rec) : Pred :=
  DriftDetector.detect ifPredict fallbackDetect d metrics

/-- The `DriftDetector` state invariant every constructible instance
satisfies: an instance not marked loaded carries no learner.  (`detect`
dispatches on `self.model is None` while the claim speaks of `is_loaded`;
the two agree on every state reachable through `__init__`/`train`/`load`.) -/
def DriftDetector.consistent (d : DriftDetector) : Prop :=
  d.is_loaded = false → d.model = none

/-! ## Deployment optimizer (`app/models/deployment_optimizer.py`)

`random.Random(42)` is embedded as an explicit stream of unit draws: `Rng`
holds the stream (`ℕ → ℚ`) and a position, and every primitive call —
`random()`, `uniform`, `randint`, `choice` — consumes exactly one draw, in
the order the source performs the calls.  CPython's `uniform(a, b)` is
literally `a + (b - a) * random()`; `randint` and `choice` are modelled as
the canonical reduction of one unit draw to an index (CPython derives their
values from `getrandbits`; the theorems below use only the fact that each
outcome is a deterministic function of the stream).  Constructing
`random.Random(42)` places the fixed, unknown seed-42 stream at position 0;
theorems quantify over the stream.  Python's `round(x, n)` (round-half-even)
is `pyRound`; floats are exact rationals. -/

/-- The embedded `random.Random` state: a draw stream and a position. -/
structure Rng where
  stream : ℕ → ℚ
  pos : ℕ

/-- `rng.random()`: consume one unit draw. -/
def Rng.next (r : Rng) : ℚ × Rng :=
  (r.stream r.pos, { r with pos := r.pos + 1 })

/-- `rng.uniform(a, b) = a + (b - a) * random()`. -/
def Rng.uniform (r : Rng) (a b : ℚ) : ℚ × Rng :=
  let n := r.next
  (a + (b - a) * n.1, n.2)

/-- `rng.randint(a, b)`: one draw reduced to an integer in `[a, b]`. -/
def Rng.randint (r : Rng) (a b : ℤ) : ℤ × Rng :=
  let n := r.next
  (a + ⌊n.1 * ((b : ℚ) - (a : ℚ) + 1)⌋, n.2)

/-- `rng.choice(seq)`: one draw reduced to an index into the sequence. -/
def Rng.choice {α : Type} [Inhabited α] (r : Rng) (l : List α) : α × Rng :=
  let n := r.next
  (l.getD (⌊n.1 * (l.length : ℚ)⌋).toNat default, n.2)

/-- Python `round` to an integer: round-half-even. -/
def pyRoundScaled (y : ℚ) : ℤ :=
  if y - ⌊y⌋ < 1 / 2 then ⌊y⌋
  else if y - ⌊y⌋ > 1 / 2 then ⌊y⌋ + 1
  else if 2 ∣ ⌊y⌋ then ⌊y⌋ else ⌊y⌋ + 1

/-- Python `round(x, n)`. -/
def pyRound (x : ℚ) (n : ℕ) : ℚ :=
  (pyRoundScaled (x * 10 ^ n) : ℚ) / 10 ^ n

/-- A deployment configuration candidate (dict-key insertion order:
`cpu_per_agent`, `memory_per_agent`, `replicas`, `batch_size`,
`concurrency`). -/
structure Config where
  cpu_per_agent : ℚ
  memory_per_agent : ℚ
  replicas : ℤ
  batch_size : ℤ
  concurrency : ℤ
deriving DecidableEq

instance : Inhabited Config := ⟨⟨0, 0, 0, 0, 0⟩⟩

/-- The `constraints` request dict (absent keys are `none`; the source
applies `float`/`int` with defaults 8, 16384, 100, 3). -/
structure Constraints where
  max_cpu : Option ℚ
  max_memory : Option ℚ
  target_latency : Option ℚ
  agent_count : Option ℤ

/-- `DeploymentOptimizer` instance state (`version`, `is_loaded`; `optimize`
reads and writes neither). -/
structure DeploymentOptimizer where
  version : String
  is_loaded : Bool
deriving DecidableEq

/-- `DeploymentOptimizer.__init__`. -/
def DeploymentOptimizer.init : DeploymentOptimizer :=
  { version := "1.0.0", is_loaded := true }

/-- `DeploymentOptimizer._fitness`. -/
def DeploymentOptimizer.fitness (config : Config)
    (target_latency max_cpu max_memory : ℚ) : ℚ :=
  let cpu := config.cpu_per_agent * (config.replicas : ℚ)
  let mem := config.memory_per_agent * (config.replicas : ℚ)
  if cpu > max_cpu ∨ mem > max_memory then -1000
  else
    let throughput :=
      config.cpu_per_agent * (config.concurrency : ℚ) * (config.replicas : ℚ)
    let estimated_latency :=
      max 10 (target_latency * (1 / max (config.memory_per_agent / 1024) (1 / 10))
        / max ((config.batch_size : ℚ) / 16) (1 / 2))
    let latency_penalty := max 0 (estimated_latency - target_latency) * (1 / 2)
    let resource_efficiency := 1 - cpu / max max_cpu 1 * (3 / 10)
    throughput * resource_efficiency - latency_penalty

/-- One random individual of `_init_population` (also the redraw
distributions of `_mutate`). -/
def DeploymentOptimizer.randomIndividual (max_cpu max_memory : ℚ)
    (agent_count : ℤ) (r : Rng) : Config × Rng :=
  let d1 := r.uniform (1 / 4) (max_cpu / ((max agent_count 1 : ℤ) : ℚ))
  let cpu := pyRound d1.1 2
  let d2 := d1.2.uniform 256 (max_memory / ((max agent_count 1 : ℤ) : ℚ))
  let mem := pyRound d2.1 0
  let d3 := d2.2.randint 1 (max agent_count 1)
  let d4 := d3.2.choice [(8 : ℤ), 16, 32, 64]
  let d5 := d4.2.randint 1 10
  (⟨cpu, mem, d3.1, d4.1, d5.1⟩, d5.2)

/-- Draw `n` values sequentially (the `for _ in range(...)` loops). -/
def sampleN {α : Type} (f : Rng → α × Rng) : ℕ → Rng → List α × Rng
  | 0, r => ([], r)
  | n + 1, r =>
    let d := f r
    let rest := sampleN f n d.2
    (d.1 :: rest.1, rest.2)

/-- `DeploymentOptimizer._crossover`: per key, take parent 1's gene when
`rng.random() < 0.5`, else parent 2's. -/
def DeploymentOptimizer.crossover (p1 p2 : Config) (r : Rng) : Config × Rng :=
  let u1 := r.next
  let cpu := if u1.1 < 1 / 2 then p1.cpu_per_agent else p2.cpu_per_agent
  let u2 := u1.2.next
  let mem := if u2.1 < 1 / 2 then p1.memory_per_agent else p2.memory_per_agent
  let u3 := u2.2.next
  let reps := if u3.1 < 1 / 2 then p1.replicas else p2.replicas
  let u4 := u3.2.next
  let batch := if u4.1 < 1 / 2 then p1.batch_size else p2.batch_size
  let u5 := u4.2.next
  let conc := if u5.1 < 1 / 2 then p1.concurrency else p2.concurrency
  (⟨cpu, mem, reps, batch, conc⟩, u5.2)

/-- `DeploymentOptimizer._mutate`: five independent 10% gates, each mutated
gene redrawn from its original sampling distribution. -/
def DeploymentOptimizer.mutate (config : Config) (max_cpu max_memory : ℚ)
    (agent_count : ℤ) (r : Rng) : Config × Rng :=
  let g1 := r.next
  let s1 :=
    if g1.1 < 1 / 10 then
      let d := g1.2.uniform (1 / 4) (max_cpu / ((max agent_count 1 : ℤ) : ℚ))
      ({ config with cpu_per_agent := pyRound d.1 2 }, d.2)
    else (config, g1.2)
  let g2 := s1.2.next
  let s2 :=
    if g2.1 < 1 / 10 then
      let d := g2.2.uniform 256 (max_memory / ((max agent_count 1 : ℤ) : ℚ))
      ({ s1.1 with memory_per_agent := pyRound d.1 0 }, d.2)
    else (s1.1, g2.2)
  let g3 := s2.2.next
  let s3 :=
    if g3.1 < 1 / 10 then
      let d := g3.2.randint 1 (max agent_count 1)
      ({ s2.1 with replicas := d.1 }, d.2)
    else (s2.1, g3.2)
  let g4 := s3.2.next
  let s4 :=
    if g4.1 < 1 / 10 then
      let d := g4.2.choice [(8 : ℤ), 16, 32, 64]
      ({ s3.1 with batch_size := d.1 }, d.2)
    else (s3.1, g4.2)
  let g5 := s4.2.next
  if g5.1 < 1 / 10 then
    let d := g5.2.randint 1 10
    ({ s4.1 with concurrency := d.1 }, d.2)
  else (s4.1, g5.2)

/-- Stable insertion of a scored candidate into a descending-sorted list:
it passes over strictly higher scores only, so earlier elements precede
equal scores. -/
def insertByScoreDesc (x : Config × ℚ) :
    List (Config × ℚ) → List (Config × ℚ)
  | [] => [x]
  | y :: ys => if y.2 > x.2 then y :: insertByScoreDesc x ys else x :: y :: ys

/-- `scored.sort(key=lambda x: x[1], reverse=True)`: Python's sort is
stable, and a stable sort's output is uniquely determined by the key order,
so the stable insertion sort below is extensionally identical to it. -/
def sortByScoreDesc : List (Config × ℚ) → List (Config × ℚ)
  | [] => []
  | x :: xs => insertByScoreDesc x (sortByScoreDesc xs)

/-- The GA loop state: population, best-ever individual, best-ever fitness
(`none` is `float("-inf")` before any generation ran). -/
abbrev GAState := List Config × Option Config × Option ℚ

/-- The `while len(children) < POPULATION_SIZE - len(survivors)` refill:
draw two survivors, single-point crossover, mutate, append. -/
def makeChildren (max_cpu max_memory : ℚ) (agent_count : ℤ)
    (survivors : List Config) : ℕ → Rng → List Config × Rng
  | 0, r => ([], r)
  | n + 1, r =>
    let pick1 := r.choice survivors
    let pick2 := pick1.2.choice survivors
    let child := DeploymentOptimizer.crossover pick1.1 pick2.1 pick2.2
    let child2 := DeploymentOptimizer.mutate child.1 max_cpu max_memory
      agent_count child.2
    let rest := makeChildren max_cpu max_memory agent_count survivors n child2.2
    (child2.1 :: rest.1, rest.2)

/-- One generation of the loop body of `optimize`: score, sort descending
(stably, as Python's `sort(reverse=True)`), update the best-ever tracking,
keep the top 50% as survivors, refill with children. -/
def gaStep (target_latency max_cpu max_memory : ℚ) (agent_count : ℤ)
    (state : GAState) (r : Rng) : GAState × Rng :=
  let scored := state.1.map fun ind =>
    (ind, DeploymentOptimizer.fitness ind target_latency max_cpu max_memory)
  let sorted := sortByScoreDesc scored
  let bestPair : Option Config × Option ℚ :=
    match sorted with
    | [] => (state.2.1, state.2.2)
    | s0 :: _ =>
      if (match state.2.2 with
          | none => true
          | some v => decide (s0.2 > v)) then (some s0.1, some s0.2)
      else (state.2.1, state.2.2)
  let survivors := (sorted.take (sorted.length / 2)).map Prod.fst
  let children := makeChildren max_cpu max_memory agent_count survivors
    (50 - survivors.length) r
  ((survivors ++ children.1, bestPair.1, bestPair.2), children.2)

/-- The `for gen in range(self.GENERATIONS)` loop (100 generations, no
early exit). -/
def gaLoop (target_latency max_cpu max_memory : ℚ) (agent_count : ℤ)
    (population : List Config) (r : Rng) : GAState × Rng :=
  (List.range 100).foldl
    (fun acc _ => gaStep target_latency max_cpu max_memory agent_count
      acc.1 acc.2)
    ((population, none, none), r)

/-- The result of `optimize` (timing omitted). -/
structure OptimizeResult where
  recommended_config : Config
  fitness_score : ℚ
  generations : ℕ
  alternatives : List (Config × ℚ)
deriving DecidableEq

/-- `DeploymentOptimizer.optimize`: seed a fresh generator (the stream at
position 0), build the initial population of 50, run 100 generations with
monotone best-ever tracking, and return the best-ever candidate, its
rounded fitness, the generation count, and the top-3 non-best candidates of
the final population.  `best_individual or final_scored[0][0]` and
`round(best_fitness, 4)` are reached with `best_individual`/`best_fitness`
set whenever a generation ran on a nonempty population — the `none`
fallbacks mirror Python's `or`-default and stand for the unreachable
`round(-inf)` case.  The instance is read and written by nothing. -/
def DeploymentOptimizer.optimize (stream : ℕ → ℚ) (opt : DeploymentOptimizer)
    (constraints : Constraints) : OptimizeResult × DeploymentOptimizer :=
  let max_cpu := constraints.max_cpu.getD 8
  let max_memory := constraints.max_memory.getD 16384
  let target_latency := constraints.target_latency.getD 100
  let agent_count := constraints.agent_count.getD 3
  let init := sampleN
    (DeploymentOptimizer.randomIndividual max_cpu max_memory agent_count)
    50 ⟨stream, 0⟩
  let loop := gaLoop target_latency max_cpu max_memory agent_count
    init.1 init.2
  let population := loop.1.1
  let best_individual := loop.1.2.1
  let best_fitness := loop.1.2.2
  let final_scored := population.map fun ind =>
    (ind, DeploymentOptimizer.fitness ind target_latency max_cpu max_memory)
  let final_sorted := sortByScoreDesc final_scored
  let alternatives := ((final_sorted.drop 1).take 3).map fun p =>
    (p.1, pyRound p.2 4)
  let recommended := match best_individual with
    | some b => b
    | none => (final_sorted.headD (default, 0)).1
  let fitness_score := match best_fitness with
    | some bf => pyRound bf 4
    | none => 0
  ({ recommended_config := recommended, fitness_score := fitness_score,
     generations := 100, alternatives := alternatives }, opt)

/-- The stream on which every draw is 0. -/
def ZRng (r : Rng) : Prop := ∀ n, r.stream n = 0

/-- The individual every zero draw produces, independently of the
constraints: low ends of both uniform ranges, lowest replica and
concurrency counts, the first batch size. -/
def c0 : Config := ⟨1 / 4, 256, 1, 8, 1⟩

/-! ### Best-ever tracking invariants of the GA loop -/

/-- Whenever a best fitness is recorded, a best individual is recorded with
it, and the fitness is that individual's. -/
def GAInv (t mc mm : ℚ) (s : GAState) : Prop :=
  ∀ bf, s.2.2 = some bf →
    ∃ b, s.2.1 = some b ∧ bf = DeploymentOptimizer.fitness b t mc mm

/-! ### The fitness formula as the spec words it (for claim C5) -/

/-- The fitness function exactly as the spec words it, including
`resourceEfficiency = 1 - (cpu / maxCpu) * 0.3`. -/
def specFitness (config : Config) (targetLatency maxCpu maxMemory : ℚ) : ℚ :=
  let cpu := config.cpu_per_agent * (config.replicas : ℚ)
  let mem := config.memory_per_agent * (config.replicas : ℚ)
  if cpu > maxCpu ∨ mem > maxMemory then -1000
  else
    let throughput :=
      config.cpu_per_agent * (config.concurrency : ℚ) * (config.replicas : ℚ)
    let estimatedLatency :=
      max 10 (targetLatency / max (config.memory_per_agent / 1024) (1 / 10)
        / max ((config.batch_size : ℚ) / 16) (1 / 2))
    let latencyPenalty := max 0 (estimatedLatency - targetLatency) * (1 / 2)
    let resourceEfficiency := 1 - cpu / maxCpu * (3 / 10)
    throughput * resourceEfficiency - latencyPenalty

/-- The spec's fitness formula with the one amendment the code forces:
`resourceEfficiency = 1 - (cpu / max(maxCpu, 1)) * 0.3`. -/
def specFitnessAmended (config : Config)
    (targetLatency maxCpu maxMemory : ℚ) : ℚ :=
  let cpu := config.cpu_per_agent * (config.replicas : ℚ)
  let mem := config.memory_per_agent * (config.replicas : ℚ)
  if cpu > maxCpu ∨ mem > maxMemory then -1000
  else
    let throughput :=
      config.cpu_per_agent * (config.concurrency : ℚ) * (config.replicas : ℚ)
    let estimatedLatency :=
      max 10 (targetLatency / max (config.memory_per_agent / 1024) (1 / 10)
        / max ((config.batch_size : ℚ) / 16) (1 / 2))
    let latencyPenalty := max 0 (estimatedLatency - targetLatency) * (1 / 2)
    let resourceEfficiency := 1 - cpu / max maxCpu 1 * (3 / 10)
    throughput * resourceEfficiency - latencyPenalty

/-! ### Order facts about `keyLt` -/

theorem keyLt_irrefl (a : List ℤ) : keyLt a a = false := by
  induction a with
  | nil => rfl
  | cons x xs ih => simp [keyLt, ih]

theorem keyLt_trans {a b c : List ℤ} (hab : keyLt a b) (hbc : keyLt b c) :
    keyLt a c := by
  induction a generalizing b c with
  | nil =>
    cases b with
    | nil => simp [keyLt] at hab
    | cons y ys =>
      cases c with
      | nil => simp [keyLt] at hbc
      | cons z zs => simp [keyLt]
  | cons x xs ih =>
    cases b with
    | nil => simp [keyLt] at hab
    | cons y ys =>
      cases c with
      | nil => simp [keyLt] at hbc
      | cons z zs =>
        simp only [keyLt, Bool.or_eq_true, Bool.and_eq_true, decide_eq_true_eq]
          at hab hbc ⊢
        rcases hab with hxy | ⟨hxy, hab⟩
        · rcases hbc with hyz | ⟨hyz, _⟩
          · exact Or.inl (lt_trans hxy hyz)
          · exact Or.inl (hyz ▸ hxy)
        · rcases hbc with hyz | ⟨hyz, hbc⟩
          · exact Or.inl (hxy ▸ hyz)
          · exact Or.inr ⟨hxy.trans hyz, ih hab hbc⟩

theorem keyLt_connex {a b : List ℤ} (h : keyLt a b = false) :
    a = b ∨ keyLt b a = true := by
  induction a generalizing b with
  | nil =>
    cases b with
    | nil => exact Or.inl rfl
    | cons y ys => simp [keyLt] at h
  | cons x xs ih =>
    cases b with
    | nil => exact Or.inr rfl
    | cons y ys =>
      simp only [keyLt, Bool.or_eq_false_iff, Bool.and_eq_false_iff,
        decide_eq_false_iff_not] at h
      obtain ⟨hxy, h2⟩ := h
      rcases lt_trichotomy x y with hlt | heq | hgt
      · exact absurd hlt hxy
      · subst heq
        rcases h2 with h2 | h2
        · simp at h2
        · rcases ih h2 with rfl | hba
          · exact Or.inl rfl
          · refine Or.inr ?_
            simp [keyLt, hba]
      · refine Or.inr ?_
        simp [keyLt, hgt]

/-- The fold inside `pickLatest` returns a member of the scanned list whose
version key no other member's key strictly exceeds. -/
theorem pickLatest_fold_spec (v : String) (vs : List String) :
    (vs.foldl (fun best w =>
        if keyLt (versionKey best) (versionKey w) then w else best) v) ∈ v :: vs ∧
    ∀ w ∈ v :: vs,
      keyLt (versionKey (vs.foldl (fun best w =>
        if keyLt (versionKey best) (versionKey w) then w else best) v))
        (versionKey w) = false := by
  induction vs generalizing v with
  | nil =>
    refine ⟨List.mem_singleton.mpr rfl, ?_⟩
    intro w hw
    rw [List.mem_singleton.mp hw]
    exact keyLt_irrefl _
  | cons u us ih =>
    simp only [List.foldl_cons]
    by_cases h : keyLt (versionKey v) (versionKey u)
    · rw [if_pos h]
      obtain ⟨hmem, hmax⟩ := ih u
      refine ⟨?_, ?_⟩
      · simp only [List.mem_cons] at hmem ⊢
        tauto
      · intro w hw
        rcases List.mem_cons.mp hw with rfl | hw
        · -- w = v: if the result beat v it would beat u by transitivity.
          by_contra hcon
          rw [Bool.not_eq_false] at hcon
          have hk : keyLt (versionKey (us.foldl (fun best w =>
              if keyLt (versionKey best) (versionKey w) then w else best) u))
              (versionKey u) = true := keyLt_trans hcon h
          rw [hmax u (List.mem_cons_self _ _)] at hk
          exact Bool.false_ne_true hk
        · exact hmax w hw
    · rw [if_neg h]
      obtain ⟨hmem, hmax⟩ := ih v
      refine ⟨?_, ?_⟩
      · simp only [List.mem_cons] at hmem ⊢
        tauto
      · intro w hw
        simp only [List.mem_cons] at hw
        rcases hw with rfl | rfl | hw
        · exact hmax w (List.mem_cons_self _ _)
        · -- w = u: not beaten because v is not beaten and ¬ keyLt v u.
          by_contra hcon
          rw [Bool.not_eq_false] at hcon
          rw [Bool.not_eq_true] at h
          rcases keyLt_connex h with heq | hba
          · rw [← heq] at hcon
            rw [hmax v (List.mem_cons_self _ _)] at hcon
            exact Bool.false_ne_true hcon
          · have hk : keyLt (versionKey (us.foldl (fun best w =>
                if keyLt (versionKey best) (versionKey w) then w else best) v))
                (versionKey v) = true := keyLt_trans hcon hba
            rw [hmax v (List.mem_cons_self _ _)] at hk
            exact Bool.false_ne_true hk
        · exact hmax w (List.mem_cons_of_mem _ hw)

/-! ### Facts about `splitDot` / `joinDot` -/

theorem splitDotAux_no_dot (cs : List Char) :
    '.' ∉ (splitDotAux cs).1 ∧ ∀ g ∈ (splitDotAux cs).2, '.' ∉ g := by
  induction cs with
  | nil => simp [splitDotAux]
  | cons c rest ih =>
    by_cases h : c = '.'
    · subst h
      simp only [splitDotAux, List.mem_cons]
      refine ⟨by simp, ?_⟩
      rintro g (rfl | hg)
      · exact ih.1
      · exact ih.2 g hg
    · simp only [splitDotAux, h]
      refine ⟨?_, ih.2⟩
      simp only [List.mem_cons, not_or]
      exact ⟨fun hc => h hc.symm, ih.1⟩

theorem splitDot_no_dot (cs : List Char) : ∀ g ∈ splitDot cs, '.' ∉ g := by
  intro g hg
  rcases List.mem_cons.mp hg with rfl | hg
  · exact (splitDotAux_no_dot cs).1
  · exact (splitDotAux_no_dot cs).2 g hg

theorem splitDotAux_of_no_dot {g : List Char} (h : '.' ∉ g) :
    splitDotAux g = (g, []) := by
  induction g with
  | nil => rfl
  | cons c rest ih =>
    simp only [List.mem_cons, not_or] at h
    have hc : ¬c = '.' := fun hc => h.1 hc.symm
    simp [splitDotAux, hc, ih h.2]

theorem splitDotAux_append_dot {g : List Char} (t : List Char) (h : '.' ∉ g) :
    splitDotAux (g ++ '.' :: t) =
      (g, (splitDotAux t).1 :: (splitDotAux t).2) := by
  induction g with
  | nil => simp [splitDotAux]
  | cons c rest ih =>
    simp only [List.mem_cons, not_or] at h
    have hc : ¬c = '.' := fun hc => h.1 hc.symm
    simp [splitDotAux, hc, ih h.2]

theorem splitDot_joinDot :
    ∀ gs : List (List Char), gs ≠ [] → (∀ g ∈ gs, '.' ∉ g) →
      splitDot (joinDot gs) = gs := by
  intro gs
  induction gs with
  | nil => intro h; exact absurd rfl h
  | cons g gs ih =>
    intro _ hnd
    cases gs with
    | nil =>
      simp only [joinDot, splitDot]
      rw [splitDotAux_of_no_dot (hnd g (List.mem_cons_self _ _))]
    | cons g' gs' =>
      have hjoin : joinDot (g :: g' :: gs') = g ++ '.' :: joinDot (g' :: gs') :=
        rfl
      have hrec := ih (by simp) fun x hx => hnd x (List.mem_cons_of_mem _ hx)
      simp only [splitDot] at hrec ⊢
      rw [hjoin, splitDotAux_append_dot _ (hnd g (List.mem_cons_self _ _))]
      simpa using hrec

theorem digitChar_ne {c : Char} (hc : c ∉ reprChars) (n : ℕ) :
    Nat.digitChar n ≠ c := by
  by_cases h : n < 16
  · interval_cases n <;> (intro hh; apply hc; rw [← hh]; decide)
  · have h0 : ¬n = 0 := by omega
    have h1 : ¬n = 1 := by omega
    have h2 : ¬n = 2 := by omega
    have h3 : ¬n = 3 := by omega
    have h4 : ¬n = 4 := by omega
    have h5 : ¬n = 5 := by omega
    have h6 : ¬n = 6 := by omega
    have h7 : ¬n = 7 := by omega
    have h8 : ¬n = 8 := by omega
    have h9 : ¬n = 9 := by omega
    have h10 : ¬n = 10 := by omega
    have h11 : ¬n = 11 := by omega
    have h12 : ¬n = 12 := by omega
    have h13 : ¬n = 13 := by omega
    have h14 : ¬n = 14 := by omega
    have h15 : ¬n = 15 := by omega
    simp only [Nat.digitChar, if_neg h0, if_neg h1, if_neg h2, if_neg h3,
      if_neg h4, if_neg h5, if_neg h6, if_neg h7, if_neg h8, if_neg h9,
      if_neg h10, if_neg h11, if_neg h12, if_neg h13, if_neg h14, if_neg h15]
    intro hh; apply hc; rw [← hh]; decide

theorem toDigitsCore_ne {c : Char} (hc : c ∉ reprChars) (b : ℕ) :
    ∀ (f n : ℕ) (ds : List Char), c ∉ ds →
      c ∉ Nat.toDigitsCore b f n ds := by
  intro f
  induction f with
  | zero => intro n ds hds; simpa [Nat.toDigitsCore] using hds
  | succ f ih =>
    intro n ds hds
    simp only [Nat.toDigitsCore]
    split
    · simp only [List.mem_cons, not_or]
      exact ⟨fun h => digitChar_ne hc _ h.symm, hds⟩
    · refine ih _ _ ?_
      simp only [List.mem_cons, not_or]
      exact ⟨fun h => digitChar_ne hc _ h.symm, hds⟩

theorem natRepr_ne {c : Char} (hc : c ∉ reprChars) (n : ℕ) :
    c ∉ (Nat.repr n).data :=
  toDigitsCore_ne hc 10 (n + 1) n [] (by simp)

theorem intRepr_ne {c : Char} (hc : c ∉ reprChars) (hm : c ≠ '-') (n : ℤ) :
    c ∉ (toString n).data := by
  cases n with
  | ofNat m => exact natRepr_ne hc m
  | negSucc m =>
    show c ∉ ("-" ++ Nat.repr (m + 1)).data
    rw [String.data_append]
    simp only [List.mem_append, not_or]
    exact ⟨by simpa using hm, natRepr_ne hc (m + 1)⟩

theorem intRepr_no_dot (n : ℤ) : '.' ∉ (toString n).data :=
  intRepr_ne (by decide) (by decide) n

/-- `str(int)` output is never the literal string `"latest"`. -/
theorem toString_int_ne_latest (n : ℤ) : toString n ≠ "latest" := by
  intro h
  have hl : 'l' ∈ (toString n).data := by rw [h]; decide
  exact intRepr_ne (by decide) (by decide) n hl

/-- `_next_version` never returns the reserved version name `"latest"`. -/
theorem nextVersion_ne_latest (cur : Option String) :
    nextVersion cur ≠ "latest" := by
  cases cur with
  | none => decide
  | some s =>
    show nextVersion (some s) ≠ "latest"
    unfold nextVersion
    cases hp : pyInt ((splitDot s.data).getLastD []) with
    | none => simp only [hp]; decide
    | some n =>
      simp only [hp]
      intro heq
      have hdata : joinDot ((splitDot s.data).dropLast ++
          [(toString (n + 1)).data]) = "latest".data :=
        congrArg String.data heq
      have hnd : ∀ g ∈ (splitDot s.data).dropLast ++ [(toString (n + 1)).data],
          '.' ∉ g := by
        intro g hg
        rcases List.mem_append.mp hg with hg | hg
        · exact splitDot_no_dot s.data g
            (List.dropLast_subset _ hg)
        · rw [List.mem_singleton.mp hg]
          exact intRepr_no_dot (n + 1)
      have hsj := splitDot_joinDot _ (by simp) hnd
      rw [hdata] at hsj
      have hlat : splitDot "latest".data = [['l', 'a', 't', 'e', 's', 't']] := by
        decide
      rw [hlat] at hsj
      cases hdL : (splitDot s.data).dropLast with
      | nil =>
        rw [hdL] at hsj
        simp only [List.nil_append, List.cons.injEq, and_true] at hsj
        have : toString (n + 1) = "latest" := by
          apply String.ext
          exact hsj.symm
        exact toString_int_ne_latest (n + 1) this
      | cons a as =>
        rw [hdL] at hsj
        have := congrArg List.length hsj
        simp at this

/-! ### Claim theorems C6, C7 -/

/-- C6: For every non-empty list of version strings, `_pick_latest` returns a
member of the list whose dot-separated integer tuple (non-numeric components
treated as 0) is maximal: every other member's tuple is equal or strictly
smaller.  In particular `["1.0.0","1.1.0","1.0.9"]` resolves to `"1.1.0"`
and `["2.0.0","10.0.0"]` resolves to `"10.0.0"` (numeric, not lexicographic,
comparison). -/
theorem pickLatest_correct :
    (∀ versions : List String, versions ≠ [] →
      ∃ m, pickLatest versions = some m ∧ m ∈ versions ∧
        ∀ v ∈ versions, versionKey v = versionKey m ∨
          keyLt (versionKey v) (versionKey m) = true) ∧
    pickLatest ["1.0.0", "1.1.0", "1.0.9"] = some "1.1.0" ∧
    pickLatest ["2.0.0", "10.0.0"] = some "10.0.0" := by
  refine ⟨?_, by decide, by decide⟩
  intro versions hne
  match versions with
  | v :: vs =>
    obtain ⟨hmem, hmax⟩ := pickLatest_fold_spec v vs
    refine ⟨_, rfl, hmem, ?_⟩
    intro w hw
    rcases keyLt_connex (hmax w hw) with heq | hlt
    · exact Or.inl heq.symm
    · exact Or.inr hlt

/-- Witness for `pickLatest_correct` at the concrete list
`["2.0.0", "10.0.0"]`. -/
theorem pickLatest_correct_witness :
    ∃ m, pickLatest ["2.0.0", "10.0.0"] = some m ∧ m ∈ ["2.0.0", "10.0.0"] ∧
      ∀ v ∈ ["2.0.0", "10.0.0"], versionKey v = versionKey m ∨
        keyLt (versionKey v) (versionKey m) = true :=
  pickLatest_correct.1 ["2.0.0", "10.0.0"] (by decide)

/-- C7: `_next_version` maps no current version to `"1.0.0"`; when the final
dot-separated component of the current version parses as an integer `n` it
returns the string whose components are the original ones with the final
component replaced by the decimal representation of `n + 1` (all other
components unchanged); and when the final component is non-numeric it
returns `"1.0.0"`. -/
theorem nextVersion_correct :
    nextVersion none = "1.0.0" ∧
    (∀ (s : String) (ps : List (List Char)) (lastc : List Char) (n : ℤ),
      splitDot s.data = ps ++ [lastc] →
      pyInt lastc = some n →
      splitDot (nextVersion (some s)).data = ps ++ [(toString (n + 1)).data]) ∧
    (∀ (s : String) (ps : List (List Char)) (lastc : List Char),
      splitDot s.data = ps ++ [lastc] →
      pyInt lastc = none →
      nextVersion (some s) = "1.0.0") := by
  refine ⟨rfl, ?_, ?_⟩
  · intro s ps lastc n hsplit hparse
    have hlast : (splitDot s.data).getLastD [] = lastc := by
      rw [hsplit]; simp
    have hdrop : (splitDot s.data).dropLast = ps := by
      rw [hsplit]; simp
    show splitDot (nextVersion (some s)).data = _
    rw [nextVersion]
    rw [hlast, hparse, hdrop]
    exact splitDot_joinDot (ps ++ [(toString (n + 1)).data]) (by simp)
      (by
        intro g hg
        rcases List.mem_append.mp hg with hg | hg
        · exact splitDot_no_dot s.data g (hsplit ▸ List.mem_append_left _ hg)
        · rw [List.mem_singleton.mp hg]
          exact intRepr_no_dot (n + 1))
  · intro s ps lastc hsplit hparse
    have hlast : (splitDot s.data).getLastD [] = lastc := by
      rw [hsplit]; simp
    rw [nextVersion, hlast, hparse]

/-- Witness for `nextVersion_correct` at the concrete version `"1.0.3"`. -/
theorem nextVersion_correct_witness :
    splitDot (nextVersion (some "1.0.3")).data =
      [['1'], ['0']] ++ [(toString (3 + 1 : ℤ)).data] :=
  nextVersion_correct.2.1 "1.0.3" [['1'], ['0']] ['3'] 3 (by decide) (by decide)

/-! ### Association-list lemmas -/

theorem alistFind_alistSet_self {α : Type} (k : String) (v : α)
    (l : List (String × α)) : alistFind k (alistSet k v l) = some v := by
  induction l with
  | nil => simp [alistFind, alistSet, List.find?]
  | cons p rest ih =>
    obtain ⟨k', v'⟩ := p
    by_cases h : k' = k
    · simp [alistSet, h, alistFind, List.find?]
    · simp only [alistSet, if_neg h]
      simpa [alistFind, List.find?, h] using ih

theorem alistFind_alistSet_ne {α : Type} {k k' : String} (h : k' ≠ k) (v : α)
    (l : List (String × α)) : alistFind k' (alistSet k v l) = alistFind k' l := by
  induction l with
  | nil => simp [alistFind, alistSet, List.find?, Ne.symm h]
  | cons p rest ih =>
    obtain ⟨k₀, v₀⟩ := p
    by_cases hk : k₀ = k
    · subst hk
      simp [alistSet, alistFind, List.find?, Ne.symm h]
    · simp only [alistSet, if_neg hk]
      by_cases hk' : k₀ = k'
      · simp [alistFind, List.find?, hk']
      · simpa [alistFind, List.find?, hk'] using ih

theorem alistFind_of_mem_keys {α : Type} {k : String} {l : List (String × α)}
    (h : k ∈ l.map (·.1)) : ∃ x, alistFind k l = some x := by
  induction l with
  | nil => simp at h
  | cons p rest ih =>
    obtain ⟨k₀, v₀⟩ := p
    by_cases hk : k₀ = k
    · exact ⟨v₀, by simp [alistFind, List.find?, hk]⟩
    · simp only [List.map_cons, List.mem_cons] at h
      rcases h with rfl | h
      · exact absurd rfl hk
      · obtain ⟨x, hx⟩ := ih h
        exact ⟨x, by simpa [alistFind, List.find?, hk] using hx⟩

/-- `pickLatest` returns a member of its argument. -/
theorem pickLatest_mem {l : List String} {m : String}
    (h : pickLatest l = some m) : m ∈ l := by
  match l with
  | [] => simp [pickLatest] at h
  | v :: vs =>
    have := (pickLatest_fold_spec v vs).1
    simp only [pickLatest, Option.some.injEq] at h
    rwa [h] at this

/-! ### Claim C2: `load_model` error handling -/

/-- C2 counterexample: on a malformed metadata sidecar `load_model` lets the
`json.load` exception escape instead of returning none. -/
theorem load_model_corrupt_json_raises :
    load_model corruptMetadataStore "m" "1" = .error "JSONDecodeError" := rfl

/-- C2 (amended): `load_model` returns none (without raising) when the name
or version directory is absent (and when `"latest"` resolves to nothing),
when the metadata sidecar is absent, and when its type discriminator is
missing or unknown; on malformed metadata JSON it raises (`json.load` is not
guarded); and a capability is only ever returned fully constructed from a
present, well-formed sidecar with a known discriminator. -/
theorem load_model_error_handling (store : Store) (name version : String) :
    (resolveVersion store name version = none →
      load_model store name version = .ok none) ∧
    (∀ v, resolveVersion store name version = some v →
      storeDir store name v = none →
      load_model store name version = .ok none) ∧
    (∀ v dir, resolveVersion store name version = some v →
      storeDir store name v = some dir → dir.metadata = none →
      load_model store name version = .ok none) ∧
    (∀ v dir md, resolveVersion store name version = some v →
      storeDir store name v = some dir →
      dir.metadata = some (MetadataFile.parsed md) →
      md.model_class.getD "" ≠ "ComplianceGapModel" →
      md.model_class.getD "" ≠ "RegulatoryPredictor" →
      load_model store name version = .ok none) ∧
    (∀ v dir, resolveVersion store name version = some v →
      storeDir store name v = some dir →
      dir.metadata = some MetadataFile.corrupt →
      load_model store name version = .error "JSONDecodeError") ∧
    (∀ cap, load_model store name version = .ok (some cap) →
      ∃ v dir md, resolveVersion store name version = some v ∧
        storeDir store name v = some dir ∧
        dir.metadata = some (MetadataFile.parsed md) ∧
        ((md.model_class.getD "" = "ComplianceGapModel" ∧
          cap = .compliance (ComplianceGapModel.init.load dir.modelFile)) ∨
         (md.model_class.getD "" = "RegulatoryPredictor" ∧
          cap = .regulatory (RegulatoryPredictor.init.load dir.modelFile)))) := by
  refine ⟨?_, ?_, ?_, ?_, ?_, ?_⟩
  · intro h
    simp only [load_model, h]
  · intro v hres hdir
    simp only [load_model, hres, hdir]
  · intro v dir hres hdir hmeta
    simp only [load_model, hres, hdir, hmeta]
  · intro v dir md hres hdir hmeta h1 h2
    simp only [load_model, hres, hdir, hmeta, if_neg h1, if_neg h2]
  · intro v dir hres hdir hmeta
    simp only [load_model, hres, hdir, hmeta]
  · intro cap h
    cases hres : resolveVersion store name version with
    | none => simp only [load_model, hres] at h; exact absurd h (by simp)
    | some v =>
      cases hdir : storeDir store name v with
      | none =>
        simp only [load_model, hres, hdir] at h
        exact absurd h (by simp)
      | some dir =>
        cases hmeta : dir.metadata with
        | none =>
          simp only [load_model, hres, hdir, hmeta] at h
          exact absurd h (by simp)
        | some mf =>
          cases mf with
          | corrupt =>
            simp only [load_model, hres, hdir, hmeta] at h
            exact absurd h (by simp)
          | parsed md =>
            simp only [load_model, hres, hdir, hmeta] at h
            by_cases h1 : md.model_class.getD "" = "ComplianceGapModel"
            · rw [if_pos h1] at h
              refine ⟨v, dir, md, rfl, hdir, hmeta, Or.inl ⟨h1, ?_⟩⟩
              have := (Except.ok.inj h)
              exact (Option.some.inj this).symm
            · rw [if_neg h1] at h
              by_cases h2 : md.model_class.getD "" = "RegulatoryPredictor"
              · rw [if_pos h2] at h
                refine ⟨v, dir, md, rfl, hdir, hmeta, Or.inr ⟨h2, ?_⟩⟩
                have := (Except.ok.inj h)
                exact (Option.some.inj this).symm
              · rw [if_neg h2] at h
                exact absurd h (by simp)

/-- Witness for `load_model_error_handling`: the absent-directory case on the
empty store. -/
theorem load_model_error_handling_witness :
    load_model ([] : Store) "compliance-gap" "1.0.0" = .ok none :=
  (load_model_error_handling [] "compliance-gap" "1.0.0").2.1 "1.0.0" rfl rfl

/-- `storeDir` after `save_model` at the written coordinates. -/
theorem storeDir_save_model_self (store : Store) (cap : Capability)
    (name version : String) (metrics : Metrics) :
    storeDir (save_model store cap name version metrics).1 name version =
      some { cap.writeFiles ((storeDir store name version).getD
              { modelFile := none, statsFile := none, metadata := none }) with
             metadata := some (MetadataFile.parsed
               { name := name, version := version, metrics := metrics,
                 model_class := some cap.className }) } := by
  unfold save_model storeDir
  simp only [alistFind_alistSet_self, Option.some_bind]

/-- `storeDir` after `save_model`, at a different version of the same name:
unchanged. -/
theorem storeDir_save_model_other_version (store : Store) (cap : Capability)
    (name version : String) (metrics : Metrics) {v : String} (hv : v ≠ version) :
    storeDir (save_model store cap name version metrics).1 name v =
      storeDir store name v := by
  unfold save_model storeDir
  simp only [alistFind_alistSet_self, Option.some_bind]
  rw [alistFind_alistSet_ne hv]
  cases h : alistFind name store with
  | none => rfl
  | some nd => rfl

/-! ### Claim C10: drift-detector artifacts can never be reloaded -/

/-- C10: the discriminator registry of `load_model` recognizes only
`ComplianceGapModel` and `RegulatoryPredictor`, so (1) immediately after a
drift artifact is saved with `save_model`, loading it back by its exact
version yields none; (2) on any store whose drift artifacts were produced by
`save_model`, `load_model ("drift-detector", v)` yields none for every
version, `"latest"` included; (3) hence startup hydration always retains the
default unloaded drift instance; and (4) saving drift artifacts preserves
that store shape. -/
theorem driftDetector_not_reloadable :
    (∀ (store : Store) (d : DriftDetector) (version : String) (metrics : Metrics),
      version ≠ "latest" →
      load_model (save_model store (.drift d) "drift-detector" version metrics).1
        "drift-detector" version = .ok none) ∧
    (∀ store : Store, driftArtifactsWellTagged store →
      ∀ version, load_model store "drift-detector" version = .ok none) ∧
    (∀ store : Store, driftArtifactsWellTagged store →
      ∀ current, lifespanDrift store current = .ok current) ∧
    (∀ (store : Store) (d : DriftDetector) (version : String) (metrics : Metrics),
      driftArtifactsWellTagged store →
      driftArtifactsWellTagged
        (save_model store (.drift d) "drift-detector" version metrics).1) := by
  have hload : ∀ store : Store, driftArtifactsWellTagged store →
      ∀ version, load_model store "drift-detector" version = .ok none := by
    intro store hw version
    unfold load_model
    cases hres : resolveVersion store "drift-detector" version with
    | none => rfl
    | some v =>
      have hdirEx : ∀ dir, storeDir store "drift-detector" v = some dir →
          (match storeDir store "drift-detector" v with
            | none => (.ok none : Except String (Option Capability))
            | some dir =>
              match dir.metadata with
              | none => .ok none
              | some .corrupt => .error "JSONDecodeError"
              | some (.parsed md) =>
                if md.model_class.getD "" = "ComplianceGapModel" then
                  .ok (some (.compliance (ComplianceGapModel.init.load dir.modelFile)))
                else if md.model_class.getD "" = "RegulatoryPredictor" then
                  .ok (some (.regulatory (RegulatoryPredictor.init.load dir.modelFile)))
                else .ok none) = .ok none := by
        intro dir hdir
        obtain ⟨md, hmeta, hclass⟩ := hw v dir hdir
        simp only [hdir, hmeta, hclass]
        rfl
      cases hdir : storeDir store "drift-detector" v with
      | none => simp only [hdir]
      | some dir => exact hdirEx dir hdir
  refine ⟨?_, hload, ?_, ?_⟩
  · intro store d version metrics hne
    have h1 : resolveVersion
        (save_model store (.drift d) "drift-detector" version metrics).1
        "drift-detector" version = some version := by
      unfold resolveVersion; rw [if_neg hne]
    simp only [load_model, h1, storeDir_save_model_self]
    rfl
  · intro store hw current
    unfold lifespanDrift
    rw [hload store hw "latest"]
    rfl
  · intro store d version metrics hw v dir hdir
    by_cases hv : v = version
    · subst hv
      rw [storeDir_save_model_self] at hdir
      obtain rfl := Option.some.inj hdir
      exact ⟨_, rfl, rfl⟩
    · rw [storeDir_save_model_other_version store _ _ _ _ hv] at hdir
      exact hw v dir hdir

/-! ### Loading back a just-saved trained instance -/

/-- Loading the exact version just saved for a trained (learner-carrying)
`ComplianceGapModel` yields a fresh instance holding the persisted blob —
with default version and empty metrics, not the trained object's fields. -/
theorem load_model_after_save_compliance {m : ComplianceGapModel} {b : Blob}
    (hm : m.model = some b) (store : Store) (name version : String)
    (metrics : Metrics) (hv : version ≠ "latest") :
    load_model (save_model store (.compliance m) name version metrics).1
      name version =
      .ok (some (.compliance
        { model := some b, version := "1.0.0", is_loaded := true,
          metrics := [] })) := by
  have h1 : resolveVersion
      (save_model store (.compliance m) name version metrics).1 name version =
      some version := by
    unfold resolveVersion; rw [if_neg hv]
  simp only [load_model, h1, storeDir_save_model_self]
  simp [Capability.writeFiles, Capability.className, hm,
    ComplianceGapModel.load, ComplianceGapModel.init]

/-- Regulatory analogue of `load_model_after_save_compliance`. -/
theorem load_model_after_save_regulatory {m : RegulatoryPredictor} {b : Blob}
    (hm : m.model = some b) (store : Store) (name version : String)
    (metrics : Metrics) (hv : version ≠ "latest") :
    load_model (save_model store (.regulatory m) name version metrics).1
      name version =
      .ok (some (.regulatory
        { model := some b, version := "1.0.0", is_loaded := true,
          metrics := [] })) := by
  have h1 : resolveVersion
      (save_model store (.regulatory m) name version metrics).1 name version =
      some version := by
    unfold resolveVersion; rw [if_neg hv]
  simp only [load_model, h1, storeDir_save_model_self]
  simp [Capability.writeFiles, Capability.className, hm,
    RegulatoryPredictor.load, RegulatoryPredictor.init]

/-- Constructor-form corollary of `load_model_after_save_compliance`. -/
theorem load_model_after_save_compliance_mk (store : Store)
    (name version : String) (metrics : Metrics) (hv : version ≠ "latest")
    (b : Blob) (ver0 : String) (ld0 : Bool) (ms0 : Metrics) :
    load_model (save_model store
        (.compliance ⟨some b, ver0, ld0, ms0⟩) name version metrics).1
      name version =
      .ok (some (.compliance ⟨some b, "1.0.0", true, []⟩)) :=
  load_model_after_save_compliance rfl store name version metrics hv

/-- Constructor-form corollary of `load_model_after_save_regulatory`. -/
theorem load_model_after_save_regulatory_mk (store : Store)
    (name version : String) (metrics : Metrics) (hv : version ≠ "latest")
    (b : Blob) (ver0 : String) (ld0 : Bool) (ms0 : Metrics) :
    load_model (save_model store
        (.regulatory ⟨some b, ver0, ld0, ms0⟩) name version metrics).1
      name version =
      .ok (some (.regulatory ⟨some b, "1.0.0", true, []⟩)) :=
  load_model_after_save_regulatory rfl store name version metrics hv

/-- A drift artifact can never be loaded back (unknown discriminator). -/
theorem load_model_after_save_drift (store : Store) (d : DriftDetector)
    (name version : String) (metrics : Metrics) (hv : version ≠ "latest") :
    load_model (save_model store (.drift d) name version metrics).1
      name version = .ok none := by
  have h1 : resolveVersion (save_model store (.drift d) name version metrics).1
      name version = some version := by
    unfold resolveVersion; rw [if_neg hv]
  simp only [load_model, h1, storeDir_save_model_self]
  rfl

/-- The compliance-gap training endpoint always succeeds once extraction
returned rows (possibly zero rows: synthetic bootstrap). -/
theorem train_compliance_gap_isOk (ext : Ext) (raw : List Rec)
    (st : ServerState) :
    ∃ st' res, train_compliance_gap ext (.ok raw) st = .ok (st', res) := by
  cases hres : train_compliance_gap ext (.ok raw) st with
  | ok pr => exact ⟨pr.1, pr.2, rfl⟩
  | error e =>
    exfalso
    simp only [train_compliance_gap, train_compliance_gap_model,
      ComplianceGapModel.train, ComplianceGapModel.init] at hres
    rw [load_model_after_save_compliance_mk st.store "compliance-gap" _ _
      (nextVersion_ne_latest _)] at hres
    simp at hres

/-- The regulatory-predictor training endpoint always succeeds once
extraction returned rows. -/
theorem train_regulatory_predictor_isOk (ext : Ext) (raw : List Rec)
    (st : ServerState) :
    ∃ st' res, train_regulatory_predictor ext (.ok raw) st = .ok (st', res) := by
  cases hres : train_regulatory_predictor ext (.ok raw) st with
  | ok pr => exact ⟨pr.1, pr.2, rfl⟩
  | error e =>
    exfalso
    simp only [train_regulatory_predictor, train_regulatory_predictor_model,
      RegulatoryPredictor.train, RegulatoryPredictor.init] at hres
    rw [load_model_after_save_regulatory_mk st.store "regulatory-predictor" _ _
      (nextVersion_ne_latest _)] at hres
    simp at hres

/-! ### Claim C1: the hot-swap contract -/

/-- C1 counterexample: a successful run of the drift-detector training
endpoint replaces the live drift reference with the transient in-memory
trained object (loaded, with training metrics), while `load_model` returns
none at the name and version just persisted — the swapped-in object is not,
and cannot be, a store reload. -/
theorem train_drift_detector_swaps_transient_object :
    ∃ st' res, train_drift_detector ext0 ServerState.initial = .ok (st', res) ∧
      load_model st'.store "drift-detector" res.version = .ok none ∧
      st'.drift = (DriftDetector.init.train ext0 ext0.syntheticDrift).1 ∧
      st'.drift.is_loaded = true ∧
      st'.drift.metrics ≠ [] := by
  refine ⟨_, _, rfl, ?_, rfl, rfl, by decide⟩
  rfl

/-- C1 (amended): after a successful training+persist cycle through the
compliance-gap or regulatory-predictor training endpoints, the live
capability reference is exactly the instance `load_model` returns for that
model name at the version just persisted (a fresh reload of the durably
persisted state, not the transient trained object); the drift-detector
training endpoint instead assigns the transient in-memory trained object to
the live reference, and `load_model` returns none for its artifact. -/
theorem hot_swap_reload_contract :
    (∀ (ext : Ext) (extraction : Except String (List Rec))
        (st st' : ServerState) (res : TrainResult),
      train_compliance_gap ext extraction st = .ok (st', res) →
      load_model st'.store "compliance-gap" res.version =
        .ok (some (.compliance st'.compliance))) ∧
    (∀ (ext : Ext) (extraction : Except String (List Rec))
        (st st' : ServerState) (res : TrainResult),
      train_regulatory_predictor ext extraction st = .ok (st', res) →
      load_model st'.store "regulatory-predictor" res.version =
        .ok (some (.regulatory st'.regulatory))) ∧
    (∀ (ext : Ext) (st st' : ServerState) (res : TrainResult),
      train_drift_detector ext st = .ok (st', res) →
      st'.drift = (DriftDetector.init.train ext ext.syntheticDrift).1 ∧
      load_model st'.store "drift-detector" res.version = .ok none) := by
  refine ⟨?_, ?_, ?_⟩
  · intro ext extraction st st' res h
    cases extraction with
    | error e =>
      exact absurd h
        (by simp [train_compliance_gap, train_compliance_gap_model])
    | ok raw =>
      simp only [train_compliance_gap, train_compliance_gap_model,
        ComplianceGapModel.train, ComplianceGapModel.init] at h
      rw [load_model_after_save_compliance_mk st.store "compliance-gap" _ _
        (nextVersion_ne_latest _)] at h
      injection h with h2
      obtain ⟨h3, h4⟩ := Prod.mk.inj h2
      subst h3; subst h4
      exact load_model_after_save_compliance_mk st.store "compliance-gap" _ _
        (nextVersion_ne_latest _) _ _ _ _
  · intro ext extraction st st' res h
    cases extraction with
    | error e =>
      exact absurd h
        (by simp [train_regulatory_predictor, train_regulatory_predictor_model])
    | ok raw =>
      simp only [train_regulatory_predictor, train_regulatory_predictor_model,
        RegulatoryPredictor.train, RegulatoryPredictor.init] at h
      rw [load_model_after_save_regulatory_mk st.store "regulatory-predictor" _ _
        (nextVersion_ne_latest _)] at h
      injection h with h2
      obtain ⟨h3, h4⟩ := Prod.mk.inj h2
      subst h3; subst h4
      exact load_model_after_save_regulatory_mk st.store "regulatory-predictor"
        _ _ (nextVersion_ne_latest _) _ _ _ _
  · intro ext st st' res h
    simp only [train_drift_detector] at h
    injection h with h2
    obtain ⟨h3, h4⟩ := Prod.mk.inj h2
    subst h3; subst h4
    exact ⟨rfl, load_model_after_save_drift st.store _ "drift-detector" _ _
      (nextVersion_ne_latest _)⟩

/-- Witness for `hot_swap_reload_contract`: a concrete successful
compliance-gap training run. -/
theorem hot_swap_reload_contract_witness :
    ∃ st' res,
      train_compliance_gap ext0 (.ok [0]) ServerState.initial = .ok (st', res) ∧
      load_model st'.store "compliance-gap" res.version =
        .ok (some (.compliance st'.compliance)) := by
  obtain ⟨st', res, h⟩ := train_compliance_gap_isOk ext0 [0] ServerState.initial
  exact ⟨st', res, h,
    hot_swap_reload_contract.1 ext0 (.ok [0]) ServerState.initial st' res h⟩

/-! ### Claim C9: `/retrain/all` isolates per-kind failures -/

/-- C9: when exactly one kind's data extraction fails (raises) while the
other extraction is healthy, `/retrain/all` still reports all three kinds
(`total_models = 3`), the non-failing kinds succeed, and exactly one entry
has status failed. -/
theorem retrain_all_isolates_failures (ext : Ext) (st : ServerState) :
    (∀ (e : String) (rs : List Rec),
      (retrain_all_models ext (.error e) (.ok rs) st).2.total_models = 3 ∧
      ((retrain_all_models ext (.error e) (.ok rs) st).2.results.map
        fun r => (r.model_name, r.status)) =
        [("compliance-gap", "failed"), ("regulatory-predictor", "success"),
         ("drift-detector", "success")] ∧
      ((retrain_all_models ext (.error e) (.ok rs) st).2.results.countP
        fun r => r.status = "failed") = 1) ∧
    (∀ (rs : List Rec) (e : String),
      (retrain_all_models ext (.ok rs) (.error e) st).2.total_models = 3 ∧
      ((retrain_all_models ext (.ok rs) (.error e) st).2.results.map
        fun r => (r.model_name, r.status)) =
        [("compliance-gap", "success"), ("regulatory-predictor", "failed"),
         ("drift-detector", "success")] ∧
      ((retrain_all_models ext (.ok rs) (.error e) st).2.results.countP
        fun r => r.status = "failed") = 1) := by
  constructor
  · intro e rs
    obtain ⟨st1, res1, h1⟩ := train_regulatory_predictor_isOk ext rs st
    have hC : train_compliance_gap ext (.error e) st = .error e := rfl
    simp only [retrain_all_models, hC, h1]
    exact ⟨rfl, rfl, rfl⟩
  · intro rs e
    obtain ⟨st1, res1, h1⟩ := train_compliance_gap_isOk ext rs st
    have hR : train_regulatory_predictor ext (.error e) st1 = .error e := rfl
    simp only [retrain_all_models, h1, hR]
    exact ⟨rfl, rfl, rfl⟩

theorem DriftDetector.consistent_init : DriftDetector.init.consistent :=
  fun _ => rfl

theorem DriftDetector.consistent_train (ext : Ext) (d : DriftDetector)
    (data : List Rec) : (DriftDetector.train ext d data).1.consistent := by
  intro h
  simp [DriftDetector.train] at h

theorem DriftDetector.consistent_load {d : DriftDetector} (hd : d.consistent)
    (modelFile : Option Blob) (statsFile : Option StatsBlob) :
    (d.load modelFile statsFile).consistent := by
  unfold DriftDetector.load
  cases modelFile with
  | some b =>
    cases statsFile with
    | some s => intro h; simp at h
    | none => intro h; simp at h
  | none =>
    cases statsFile with
    | some s => intro h; exact hd h
    | none => exact hd

/-! ### Facts about the sort, the rounding, and the all-zero draw stream -/

theorem insertByScoreDesc_perm (x : Config × ℚ) (l : List (Config × ℚ)) :
    List.Perm (insertByScoreDesc x l) (x :: l) := by
  induction l with
  | nil => rfl
  | cons y ys ih =>
    unfold insertByScoreDesc
    split
    · exact (ih.cons y).trans (List.Perm.swap x y ys)
    · rfl

theorem sortByScoreDesc_perm (l : List (Config × ℚ)) :
    List.Perm (sortByScoreDesc l) l := by
  induction l with
  | nil => rfl
  | cons x xs ih =>
    exact (insertByScoreDesc_perm x (sortByScoreDesc xs)).trans (ih.cons x)

theorem mem_of_mem_sortByScoreDesc {a : Config × ℚ} {l : List (Config × ℚ)}
    (h : a ∈ sortByScoreDesc l) : a ∈ l :=
  (sortByScoreDesc_perm l).mem_iff.mp h

theorem sortByScoreDesc_replicate (n : ℕ) (p : Config × ℚ) :
    sortByScoreDesc (List.replicate n p) = List.replicate n p := by
  induction n with
  | zero => rfl
  | succ n ih =>
    show sortByScoreDesc (p :: List.replicate n p) = _
    unfold sortByScoreDesc
    rw [ih]
    cases n with
    | zero => rfl
    | succ m =>
      show insertByScoreDesc p (p :: List.replicate m p) = _
      unfold insertByScoreDesc
      rw [if_neg (lt_irrefl p.2)]
      rfl

/-- Rounding an integer value returns it unchanged. -/
theorem pyRoundScaled_intCast (m : ℤ) : pyRoundScaled (m : ℚ) = m := by
  unfold pyRoundScaled
  rw [Int.floor_intCast]
  norm_num

/-- Rounding never goes below the floor. -/
theorem pyRoundScaled_ge_floor (y : ℚ) : ⌊y⌋ ≤ pyRoundScaled y := by
  unfold pyRoundScaled
  split_ifs <;> omega

theorem pyRound_quarter : pyRound (1 / 4) 2 = 1 / 4 := by
  unfold pyRound
  rw [show ((1 : ℚ) / 4 * 10 ^ 2) = ((25 : ℤ) : ℚ) by norm_num,
    pyRoundScaled_intCast]
  norm_num

theorem pyRound_256 : pyRound 256 0 = 256 := by
  unfold pyRound
  rw [show ((256 : ℚ) * 10 ^ 0) = ((256 : ℤ) : ℚ) by norm_num,
    pyRoundScaled_intCast]
  norm_num

theorem pyRound_neg1000 : pyRound (-1000) 4 = -1000 := by
  unfold pyRound
  rw [show ((-1000 : ℚ) * 10 ^ 4) = ((-10000000 : ℤ) : ℚ) by norm_num,
    pyRoundScaled_intCast]
  norm_num

theorem ZRng.advance {r : Rng} (h : ZRng r) : ZRng r.next.2 := h

theorem Rng.next_zero {r : Rng} (h : ZRng r) : r.next.1 = 0 := h r.pos

theorem Rng.uniform_zero {r : Rng} (h : ZRng r) (a b : ℚ) :
    r.uniform a b = (a, r.next.2) := by
  unfold Rng.uniform
  dsimp only
  rw [show r.next.1 = 0 from h r.pos]
  norm_num

theorem Rng.randint_zero {r : Rng} (h : ZRng r) (a b : ℤ) :
    r.randint a b = (a, r.next.2) := by
  unfold Rng.randint
  dsimp only
  rw [show r.next.1 = 0 from h r.pos]
  norm_num

theorem Rng.choice_zero {α : Type} [Inhabited α] {r : Rng} (h : ZRng r)
    (x : α) (l : List α) : r.choice (x :: l) = (x, r.next.2) := by
  unfold Rng.choice
  dsimp only
  rw [show r.next.1 = 0 from h r.pos]
  norm_num

theorem randomIndividual_zero (mc mm : ℚ) (ac : ℤ) {r : Rng} (h : ZRng r) :
    ∃ r', DeploymentOptimizer.randomIndividual mc mm ac r = (c0, r') ∧
      ZRng r' := by
  refine ⟨r.next.2.next.2.next.2.next.2.next.2, ?_, ?_⟩
  · unfold DeploymentOptimizer.randomIndividual
    dsimp only
    rw [Rng.uniform_zero h, Rng.uniform_zero h.advance,
      Rng.randint_zero h.advance.advance,
      Rng.choice_zero h.advance.advance.advance,
      Rng.randint_zero h.advance.advance.advance.advance,
      pyRound_quarter, pyRound_256]
    rfl
  · exact h.advance.advance.advance.advance.advance

/-- Crossover of two identical parents returns that parent (five draws are
still consumed). -/
theorem crossover_self (p : Config) (r : Rng) :
    DeploymentOptimizer.crossover p p r =
      (p, r.next.2.next.2.next.2.next.2.next.2) := by
  unfold DeploymentOptimizer.crossover
  dsimp only
  simp only [ite_self]

/-- On the all-zero stream every mutation gate fires and every redraw
reproduces `c0`'s genes. -/
theorem mutate_zero (mc mm : ℚ) (ac : ℤ) {r : Rng} (h : ZRng r) :
    ∃ r', DeploymentOptimizer.mutate c0 mc mm ac r = (c0, r') ∧ ZRng r' := by
  refine ⟨r.next.2.next.2.next.2.next.2.next.2.next.2.next.2.next.2.next.2.next.2,
    ?_, ?_⟩
  · unfold DeploymentOptimizer.mutate
    dsimp only
    rw [Rng.next_zero h, if_pos (show (0 : ℚ) < 1 / 10 by norm_num),
      Rng.uniform_zero h.advance]
    dsimp only
    rw [pyRound_quarter]
    rw [Rng.next_zero h.advance.advance,
      if_pos (show (0 : ℚ) < 1 / 10 by norm_num),
      Rng.uniform_zero h.advance.advance.advance]
    dsimp only
    rw [pyRound_256]
    rw [Rng.next_zero h.advance.advance.advance.advance,
      if_pos (show (0 : ℚ) < 1 / 10 by norm_num),
      Rng.randint_zero h.advance.advance.advance.advance.advance]
    dsimp only
    rw [Rng.next_zero h.advance.advance.advance.advance.advance.advance,
      if_pos (show (0 : ℚ) < 1 / 10 by norm_num),
      Rng.choice_zero h.advance.advance.advance.advance.advance.advance.advance]
    dsimp only
    rw [Rng.next_zero h.advance.advance.advance.advance.advance.advance.advance.advance,
      if_pos (show (0 : ℚ) < 1 / 10 by norm_num),
      Rng.randint_zero
        h.advance.advance.advance.advance.advance.advance.advance.advance.advance]
    rfl
  · exact h.advance.advance.advance.advance.advance.advance.advance.advance.advance.advance

/-- A sampler that always produces `x` fills the population with `x`. -/
theorem sampleN_zero {α : Type} (f : Rng → α × Rng) (x : α)
    (hf : ∀ {r : Rng}, ZRng r → ∃ r', f r = (x, r') ∧ ZRng r') :
    ∀ (n : ℕ) {r : Rng}, ZRng r →
      ∃ r', sampleN f n r = (List.replicate n x, r') ∧ ZRng r' := by
  intro n
  induction n with
  | zero => intro r h; exact ⟨r, rfl, h⟩
  | succ n ih =>
    intro r h
    obtain ⟨r1, hf1, h1⟩ := hf h
    obtain ⟨r2, hrec, h2⟩ := ih h1
    refine ⟨r2, ?_, h2⟩
    unfold sampleN
    dsimp only
    rw [hf1]
    dsimp only
    rw [hrec]
    rfl

/-- On the all-zero stream every child equals `c0` (both survivor picks take
index 0, crossover of identical parents is the parent, mutation reproduces
`c0`). -/
theorem makeChildren_zero (mc mm : ℚ) (ac : ℤ) (m : ℕ) :
    ∀ (n : ℕ) {r : Rng}, ZRng r →
      ∃ r', makeChildren mc mm ac (List.replicate (m + 1) c0) n r =
        (List.replicate n c0, r') ∧ ZRng r' := by
  intro n
  induction n with
  | zero => intro r h; exact ⟨r, rfl, h⟩
  | succ n ih =>
    intro r h
    have hc1 : r.choice (List.replicate (m + 1) c0) = (c0, r.next.2) := by
      rw [List.replicate_succ]
      exact Rng.choice_zero h c0 _
    have hc2 : r.next.2.choice (List.replicate (m + 1) c0) =
        (c0, r.next.2.next.2) := by
      rw [List.replicate_succ]
      exact Rng.choice_zero h.advance c0 _
    obtain ⟨r1, hmu, h1⟩ := mutate_zero mc mm ac
      (h.advance.advance.advance.advance.advance.advance.advance :
        ZRng (r.next.2.next.2.next.2.next.2.next.2.next.2.next.2))
    obtain ⟨r2, hrec, h2⟩ := ih h1
    refine ⟨r2, ?_, h2⟩
    unfold makeChildren
    dsimp only
    rw [hc1]
    dsimp only
    rw [hc2]
    dsimp only
    rw [crossover_self]
    dsimp only
    rw [hmu]
    dsimp only
    rw [hrec]
    rfl

/-- One generation on the all-`c0` population with no best yet: the
population is reproduced and `c0` becomes the best with its fitness. -/
theorem gaStep_zero_first (t mc mm : ℚ) (ac : ℤ) {r : Rng} (h : ZRng r) :
    ∃ r', gaStep t mc mm ac (List.replicate 50 c0, none, none) r =
      ((List.replicate 50 c0, some c0,
        some (DeploymentOptimizer.fitness c0 t mc mm)), r') ∧ ZRng r' := by
  obtain ⟨r1, hch, h1⟩ := makeChildren_zero mc mm ac 24 25 h
  refine ⟨r1, ?_, h1⟩
  unfold gaStep
  dsimp only
  rw [List.map_replicate, sortByScoreDesc_replicate]
  rw [show List.replicate 50 (c0, DeploymentOptimizer.fitness c0 t mc mm) =
      (c0, DeploymentOptimizer.fitness c0 t mc mm) ::
        List.replicate 49 (c0, DeploymentOptimizer.fitness c0 t mc mm) from rfl]
  dsimp only
  rw [show ((c0, DeploymentOptimizer.fitness c0 t mc mm) ::
      List.replicate 49 (c0, DeploymentOptimizer.fitness c0 t mc mm)).length / 2 =
      25 by simp]
  rw [show List.take 25 ((c0, DeploymentOptimizer.fitness c0 t mc mm) ::
      List.replicate 49 (c0, DeploymentOptimizer.fitness c0 t mc mm)) =
      List.replicate 25 (c0, DeploymentOptimizer.fitness c0 t mc mm) by
    rw [show ((c0, DeploymentOptimizer.fitness c0 t mc mm) ::
        List.replicate 49 (c0, DeploymentOptimizer.fitness c0 t mc mm)) =
        List.replicate 50 (c0, DeploymentOptimizer.fitness c0 t mc mm) from rfl,
      List.take_replicate]
    norm_num]
  rw [List.map_replicate]
  dsimp only
  rw [show (50 - (List.replicate 25 c0).length) = 25 by simp]
  rw [show List.replicate 25 c0 = List.replicate (24 + 1) c0 from rfl, hch]
  rfl

/-- Once the best is `c0` at its own fitness, a generation on the all-`c0`
population changes nothing (the strict-improvement test fails). -/
theorem gaStep_zero_steady (t mc mm : ℚ) (ac : ℤ) {r : Rng} (h : ZRng r) :
    ∃ r', gaStep t mc mm ac (List.replicate 50 c0, some c0,
        some (DeploymentOptimizer.fitness c0 t mc mm)) r =
      ((List.replicate 50 c0, some c0,
        some (DeploymentOptimizer.fitness c0 t mc mm)), r') ∧ ZRng r' := by
  obtain ⟨r1, hch, h1⟩ := makeChildren_zero mc mm ac 24 25 h
  refine ⟨r1, ?_, h1⟩
  unfold gaStep
  dsimp only
  rw [List.map_replicate, sortByScoreDesc_replicate]
  rw [show List.replicate 50 (c0, DeploymentOptimizer.fitness c0 t mc mm) =
      (c0, DeploymentOptimizer.fitness c0 t mc mm) ::
        List.replicate 49 (c0, DeploymentOptimizer.fitness c0 t mc mm) from rfl]
  dsimp only
  rw [show decide (DeploymentOptimizer.fitness c0 t mc mm >
      DeploymentOptimizer.fitness c0 t mc mm) = false by simp]
  rw [show ((c0, DeploymentOptimizer.fitness c0 t mc mm) ::
      List.replicate 49 (c0, DeploymentOptimizer.fitness c0 t mc mm)).length / 2 =
      25 by simp]
  rw [show List.take 25 ((c0, DeploymentOptimizer.fitness c0 t mc mm) ::
      List.replicate 49 (c0, DeploymentOptimizer.fitness c0 t mc mm)) =
      List.replicate 25 (c0, DeploymentOptimizer.fitness c0 t mc mm) by
    rw [show ((c0, DeploymentOptimizer.fitness c0 t mc mm) ::
        List.replicate 49 (c0, DeploymentOptimizer.fitness c0 t mc mm)) =
        List.replicate 50 (c0, DeploymentOptimizer.fitness c0 t mc mm) from rfl,
      List.take_replicate]
    norm_num]
  rw [List.map_replicate]
  dsimp only
  rw [show (50 - (List.replicate 25 c0).length) = 25 by simp]
  rw [show List.replicate 25 c0 = List.replicate (24 + 1) c0 from rfl, hch]
  rfl

/-- Folding steady generations preserves the all-`c0` state. -/
theorem foldl_gaStep_zero (t mc mm : ℚ) (ac : ℤ) :
    ∀ (l : List ℕ) {r : Rng}, ZRng r →
      ∃ r', (l.foldl (fun acc _ => gaStep t mc mm ac acc.1 acc.2)
        ((List.replicate 50 c0, some c0,
          some (DeploymentOptimizer.fitness c0 t mc mm)), r)) =
        ((List.replicate 50 c0, some c0,
          some (DeploymentOptimizer.fitness c0 t mc mm)), r') ∧ ZRng r' := by
  intro l
  induction l with
  | nil => intro r h; exact ⟨r, rfl, h⟩
  | cons a l ih =>
    intro r h
    obtain ⟨r1, hstep, h1⟩ := gaStep_zero_steady t mc mm ac h
    obtain ⟨r2, hrec, h2⟩ := ih h1
    refine ⟨r2, ?_, h2⟩
    rw [List.foldl_cons]
    dsimp only
    rw [hstep, hrec]

/-- The full 100-generation loop on the all-zero stream. -/
theorem gaLoop_zero (t mc mm : ℚ) (ac : ℤ) {r : Rng} (h : ZRng r) :
    ∃ r', gaLoop t mc mm ac (List.replicate 50 c0) r =
      ((List.replicate 50 c0, some c0,
        some (DeploymentOptimizer.fitness c0 t mc mm)), r') ∧ ZRng r' := by
  obtain ⟨r1, hfirst, h1⟩ := gaStep_zero_first t mc mm ac h
  obtain ⟨r2, hrest, h2⟩ := foldl_gaStep_zero t mc mm ac
    ((List.range 99).map Nat.succ) h1
  refine ⟨r2, ?_, h2⟩
  unfold gaLoop
  rw [show (100 : ℕ) = 99 + 1 from rfl, List.range_succ_eq_map,
    List.foldl_cons]
  dsimp only
  rw [hfirst, hrest]

/-- `optimize` on the all-zero draw stream, for arbitrary constraints:
every candidate of every generation is `c0`, which is therefore the
recommended configuration, scored at its own (rounded) fitness. -/
theorem optimize_zero_stream (opt : DeploymentOptimizer) (c : Constraints) :
    (DeploymentOptimizer.optimize (fun _ => 0) opt c).1.recommended_config =
      c0 ∧
    (DeploymentOptimizer.optimize (fun _ => 0) opt c).1.fitness_score =
      pyRound (DeploymentOptimizer.fitness c0 (c.target_latency.getD 100)
        (c.max_cpu.getD 8) (c.max_memory.getD 16384)) 4 := by
  have hz : ZRng ⟨fun _ => 0, 0⟩ := fun _ => rfl
  obtain ⟨r1, hs, h1⟩ := sampleN_zero
    (DeploymentOptimizer.randomIndividual (c.max_cpu.getD 8)
      (c.max_memory.getD 16384) (c.agent_count.getD 3)) c0
    (fun h => randomIndividual_zero _ _ _ h) 50 hz
  obtain ⟨r2, hl, h2⟩ := gaLoop_zero (c.target_latency.getD 100)
    (c.max_cpu.getD 8) (c.max_memory.getD 16384) (c.agent_count.getD 3) h1
  unfold DeploymentOptimizer.optimize
  dsimp only
  rw [hs]
  dsimp only
  rw [hl]
  exact ⟨rfl, rfl⟩

theorem gaStep_inv (t mc mm : ℚ) (ac : ℤ) (s : GAState) (r : Rng)
    (h : GAInv t mc mm s) : GAInv t mc mm (gaStep t mc mm ac s r).1 := by
  obtain ⟨pop, B, F⟩ := s
  intro bf hbf
  unfold gaStep at hbf ⊢
  dsimp only at hbf ⊢
  cases hsort : sortByScoreDesc (pop.map fun ind =>
      (ind, DeploymentOptimizer.fitness ind t mc mm)) with
  | nil =>
    rw [hsort] at hbf
    dsimp only at hbf ⊢
    exact h bf hbf
  | cons s0 rest =>
    rw [hsort] at hbf
    dsimp only at hbf ⊢
    have hm : s0 ∈ sortByScoreDesc (pop.map fun ind =>
        (ind, DeploymentOptimizer.fitness ind t mc mm)) := by
      rw [hsort]; exact List.mem_cons_self _ _
    obtain ⟨ind, _, heq⟩ := List.mem_map.mp (mem_of_mem_sortByScoreDesc hm)
    cases F with
    | none =>
      dsimp only at hbf ⊢
      rw [if_pos rfl] at hbf ⊢
      refine ⟨s0.1, rfl, ?_⟩
      have hbf2 : s0.2 = bf := Option.some.inj hbf
      rw [← hbf2, ← heq]
    | some v =>
      dsimp only at hbf ⊢
      by_cases hgt : s0.2 > v
      · rw [if_pos (decide_eq_true hgt)] at hbf ⊢
        refine ⟨s0.1, rfl, ?_⟩
        have hbf2 : s0.2 = bf := Option.some.inj hbf
        rw [← hbf2, ← heq]
      · rw [if_neg (fun hh => hgt (of_decide_eq_true hh))] at hbf ⊢
        exact h bf hbf

theorem gaStep_isSome_of_isSome (t mc mm : ℚ) (ac : ℤ) (s : GAState) (r : Rng)
    (hs : s.2.2.isSome) : ((gaStep t mc mm ac s r).1.2.2).isSome := by
  obtain ⟨pop, B, F⟩ := s
  unfold gaStep
  dsimp only
  cases hsort : sortByScoreDesc (pop.map fun ind =>
      (ind, DeploymentOptimizer.fitness ind t mc mm)) with
  | nil => exact hs
  | cons s0 rest =>
    dsimp only
    cases F with
    | none => rw [if_pos rfl]; rfl
    | some v =>
      by_cases hgt : s0.2 > v
      · rw [if_pos (decide_eq_true hgt)]; rfl
      · rw [if_neg (fun hh => hgt (of_decide_eq_true hh))]; rfl

theorem gaStep_isSome_of_ne_nil (t mc mm : ℚ) (ac : ℤ) (s : GAState) (r : Rng)
    (hpop : s.1 ≠ []) : ((gaStep t mc mm ac s r).1.2.2).isSome := by
  obtain ⟨pop, B, F⟩ := s
  unfold gaStep
  dsimp only
  cases hsort : sortByScoreDesc (pop.map fun ind =>
      (ind, DeploymentOptimizer.fitness ind t mc mm)) with
  | nil =>
    exfalso
    have hperm := sortByScoreDesc_perm (pop.map fun ind =>
      (ind, DeploymentOptimizer.fitness ind t mc mm))
    rw [hsort] at hperm
    have hlen := hperm.length_eq
    simp only [List.length_nil, List.length_map] at hlen
    exact hpop (List.length_eq_zero.mp hlen.symm)
  | cons s0 rest =>
    dsimp only
    cases F with
    | none => rw [if_pos rfl]; rfl
    | some v =>
      by_cases hgt : s0.2 > v
      · rw [if_pos (decide_eq_true hgt)]; rfl
      · rw [if_neg (fun hh => hgt (of_decide_eq_true hh))]; rfl

theorem foldl_gaStep_inv (t mc mm : ℚ) (ac : ℤ) :
    ∀ (l : List ℕ) (a : GAState × Rng), GAInv t mc mm a.1 →
      GAInv t mc mm
        ((l.foldl (fun acc _ => gaStep t mc mm ac acc.1 acc.2) a)).1 := by
  intro l
  induction l with
  | nil => intro a h; exact h
  | cons x xs ih =>
    intro a h
    rw [List.foldl_cons]
    exact ih _ (gaStep_inv t mc mm ac a.1 a.2 h)

theorem foldl_gaStep_isSome (t mc mm : ℚ) (ac : ℤ) :
    ∀ (l : List ℕ) (a : GAState × Rng), (a.1.2.2).isSome →
      (((l.foldl (fun acc _ => gaStep t mc mm ac acc.1 acc.2) a)).1.2.2).isSome := by
  intro l
  induction l with
  | nil => intro a h; exact h
  | cons x xs ih =>
    intro a h
    rw [List.foldl_cons]
    exact ih _ (gaStep_isSome_of_isSome t mc mm ac a.1 a.2 h)

/-- After the 100-generation loop on a nonempty initial population, a best
individual is recorded and the recorded best fitness is its fitness. -/
theorem gaLoop_spec (t mc mm : ℚ) (ac : ℤ) (pop : List Config) (r : Rng)
    (hpop : pop ≠ []) :
    GAInv t mc mm (gaLoop t mc mm ac pop r).1 ∧
    ((gaLoop t mc mm ac pop r).1.2.2).isSome := by
  unfold gaLoop
  rw [show (100 : ℕ) = 99 + 1 from rfl, List.range_succ_eq_map,
    List.foldl_cons]
  constructor
  · exact foldl_gaStep_inv t mc mm ac _ _
      (gaStep_inv t mc mm ac (pop, none, none) r (fun bf h => by simp at h))
  · exact foldl_gaStep_isSome t mc mm ac _ _
      (gaStep_isSome_of_ne_nil t mc mm ac (pop, none, none) r hpop)

theorem sampleN_length {α : Type} (f : Rng → α × Rng) :
    ∀ (n : ℕ) (r : Rng), ((sampleN f n r).1).length = n := by
  intro n
  induction n with
  | zero => intro r; rfl
  | succ n ih =>
    intro r
    unfold sampleN
    dsimp only
    rw [List.length_cons, ih]

/-! ### Claim C4: feasibility of the recommended configuration -/

/-- C4 counterexample: over the embedded draw stream, with every unit draw 0
and constraints `max_cpu = 0.1` (all other keys absent), every candidate of
every generation is `c0 = ⟨0.25, 256, 1, 8, 1⟩` — infeasible, since
`0.25 * 1 > 0.1` — so optimize returns an infeasible `recommended_config`:
when no candidate scores above `-1000`, an infeasible best (scored exactly
`-1000`) can win. -/
theorem optimize_feasibility_counterexample :
    ¬((DeploymentOptimizer.optimize (fun _ => 0) DeploymentOptimizer.init
        ⟨some (1 / 10), none, none, none⟩).1.recommended_config.cpu_per_agent *
      (((DeploymentOptimizer.optimize (fun _ => 0) DeploymentOptimizer.init
        ⟨some (1 / 10), none, none, none⟩).1.recommended_config.replicas : ℤ) : ℚ) ≤
        1 / 10 ∧
      (DeploymentOptimizer.optimize (fun _ => 0) DeploymentOptimizer.init
        ⟨some (1 / 10), none, none, none⟩).1.recommended_config.memory_per_agent *
      (((DeploymentOptimizer.optimize (fun _ => 0) DeploymentOptimizer.init
        ⟨some (1 / 10), none, none, none⟩).1.recommended_config.replicas : ℤ) : ℚ) ≤
        16384) := by
  rw [(optimize_zero_stream DeploymentOptimizer.init
    ⟨some (1 / 10), none, none, none⟩).1]
  intro hcon
  have := hcon.1
  norm_num [c0] at this

/-- C4 (amended): whenever the returned `fitness_score` exceeds `-1000`, the
`recommended_config` is feasible: `cpu_per_agent * replicas ≤ maxCpu` and
`memory_per_agent * replicas ≤ maxMemory`.  (The counterexample shows the
unconditional claim fails exactly when every candidate scores `≤ -1000`, in
which case an infeasible candidate, scored exactly `-1000`, can be
returned.) -/
theorem optimize_feasible_of_positive_score (stream : ℕ → ℚ)
    (opt : DeploymentOptimizer) (c : Constraints)
    (h : (DeploymentOptimizer.optimize stream opt c).1.fitness_score > -1000) :
    (DeploymentOptimizer.optimize stream opt c).1.recommended_config.cpu_per_agent *
      (((DeploymentOptimizer.optimize stream opt c).1.recommended_config.replicas : ℤ) : ℚ) ≤
      c.max_cpu.getD 8 ∧
    (DeploymentOptimizer.optimize stream opt c).1.recommended_config.memory_per_agent *
      (((DeploymentOptimizer.optimize stream opt c).1.recommended_config.replicas : ℤ) : ℚ) ≤
      c.max_memory.getD 16384 := by
  have hlen : ((sampleN (DeploymentOptimizer.randomIndividual
      (c.max_cpu.getD 8) (c.max_memory.getD 16384) (c.agent_count.getD 3))
      50 ⟨stream, 0⟩).1) ≠ [] := by
    intro hnil
    have := sampleN_length (DeploymentOptimizer.randomIndividual
      (c.max_cpu.getD 8) (c.max_memory.getD 16384) (c.agent_count.getD 3))
      50 ⟨stream, 0⟩
    rw [hnil] at this
    simp at this
  obtain ⟨hinv, hsome⟩ := gaLoop_spec (c.target_latency.getD 100)
    (c.max_cpu.getD 8) (c.max_memory.getD 16384) (c.agent_count.getD 3)
    ((sampleN (DeploymentOptimizer.randomIndividual (c.max_cpu.getD 8)
      (c.max_memory.getD 16384) (c.agent_count.getD 3)) 50 ⟨stream, 0⟩).1)
    ((sampleN (DeploymentOptimizer.randomIndividual (c.max_cpu.getD 8)
      (c.max_memory.getD 16384) (c.agent_count.getD 3)) 50 ⟨stream, 0⟩).2)
    hlen
  obtain ⟨bf, hbf⟩ := Option.isSome_iff_exists.mp hsome
  obtain ⟨b, hb, hfit⟩ := hinv bf hbf
  unfold DeploymentOptimizer.optimize at h ⊢
  dsimp only at h ⊢
  rw [hbf] at h
  rw [hb]
  dsimp only at h ⊢
  by_contra hcon
  rw [not_and_or] at hcon
  have hfb : DeploymentOptimizer.fitness b (c.target_latency.getD 100)
      (c.max_cpu.getD 8) (c.max_memory.getD 16384) = -1000 := by
    unfold DeploymentOptimizer.fitness
    dsimp only
    rw [if_pos]
    rcases hcon with hc | hc
    · exact Or.inl (lt_of_not_le hc)
    · exact Or.inr (lt_of_not_le hc)
  rw [hfb] at hfit
  rw [hfit, pyRound_neg1000] at h
  exact lt_irrefl _ h

/-- Witness for `optimize_feasible_of_positive_score`: the all-zero stream
with default constraints scores `c0` at about `-349.75 > -1000`, and the
recommended configuration is feasible. -/
theorem optimize_feasible_of_positive_score_witness :
    (DeploymentOptimizer.optimize (fun _ => 0) DeploymentOptimizer.init
      ⟨none, none, none, none⟩).1.fitness_score > -1000 ∧
    (DeploymentOptimizer.optimize (fun _ => 0) DeploymentOptimizer.init
      ⟨none, none, none, none⟩).1.recommended_config.cpu_per_agent *
      (((DeploymentOptimizer.optimize (fun _ => 0) DeploymentOptimizer.init
        ⟨none, none, none, none⟩).1.recommended_config.replicas : ℤ) : ℚ) ≤
      (8 : ℚ) ∧
    (DeploymentOptimizer.optimize (fun _ => 0) DeploymentOptimizer.init
      ⟨none, none, none, none⟩).1.recommended_config.memory_per_agent *
      (((DeploymentOptimizer.optimize (fun _ => 0) DeploymentOptimizer.init
        ⟨none, none, none, none⟩).1.recommended_config.replicas : ℤ) : ℚ) ≤
      (16384 : ℚ) := by
  have hz := optimize_zero_stream DeploymentOptimizer.init ⟨none, none, none, none⟩
  have hfit : DeploymentOptimizer.fitness c0 100 8 16384 = -447683 / 1280 := by
    unfold DeploymentOptimizer.fitness c0
    norm_num [max_def]
  have hscore : (DeploymentOptimizer.optimize (fun _ => 0)
      DeploymentOptimizer.init ⟨none, none, none, none⟩).1.fitness_score >
      -1000 := by
    rw [hz.2]
    simp only [Option.getD_none]
    rw [hfit]
    unfold pyRound
    have hy : ((-3497524 : ℤ) : ℚ) ≤ (-447683 / 1280 : ℚ) * 10 ^ 4 := by
      norm_num
    have h2 : (-3497524 : ℤ) ≤ pyRoundScaled ((-447683 / 1280 : ℚ) * 10 ^ 4) :=
      le_trans (Int.le_floor.mpr hy) (pyRoundScaled_ge_floor _)
    have h3 : ((-3497524 : ℤ) : ℚ) ≤
        (pyRoundScaled ((-447683 / 1280 : ℚ) * 10 ^ 4) : ℚ) := by
      exact_mod_cast h2
    have h5 : (-1000 : ℚ) < ((-3497524 : ℤ) : ℚ) / 10 ^ 4 := by norm_num
    exact lt_of_lt_of_le h5
      ((div_le_div_iff_of_pos_right (by norm_num : (0 : ℚ) < 10 ^ 4)).mpr h3)
  refine ⟨hscore, ?_⟩
  exact optimize_feasible_of_positive_score (fun _ => 0)
    DeploymentOptimizer.init ⟨none, none, none, none⟩ hscore

/-! ### Claim C3: determinism and statelessness of `optimize` -/

/-- C3: `optimize` is deterministic and state-free.  Fed the fixed seed's
draw stream, its result depends only on the constraints — two instances in
arbitrary states return identical `recommended_config` and `fitness_score`
for identical constraints — the instance state is returned untouched, and a
second call on the resulting instance with the same constraints reproduces
the first result in full. -/
theorem optimize_deterministic (stream : ℕ → ℚ)
    (opt1 opt2 : DeploymentOptimizer) (c : Constraints) :
    ((DeploymentOptimizer.optimize stream opt1 c).1.recommended_config =
      (DeploymentOptimizer.optimize stream opt2 c).1.recommended_config ∧
     (DeploymentOptimizer.optimize stream opt1 c).1.fitness_score =
      (DeploymentOptimizer.optimize stream opt2 c).1.fitness_score) ∧
    (DeploymentOptimizer.optimize stream opt1 c).2 = opt1 ∧
    (DeploymentOptimizer.optimize stream
        (DeploymentOptimizer.optimize stream opt1 c).2 c).1 =
      (DeploymentOptimizer.optimize stream opt1 c).1 :=
  ⟨⟨rfl, rfl⟩, rfl, rfl⟩

/-! ### Claim C5: the fitness formula -/

/-- C5 counterexample: at `cpu_per_agent = 0.5, memory_per_agent = 1024,
replicas = 1, batch_size = 16, concurrency = 1` with `targetLatency = 100`,
`maxCpu = 0.5`, `maxMemory = 16384`, the code scores `0.425`
(`resource_efficiency` divides by `max(max_cpu, 1) = 1`) while the spec's
formula gives `0.35` (dividing by `maxCpu = 0.5`). -/
theorem fitness_resource_efficiency_counterexample :
    DeploymentOptimizer.fitness ⟨1 / 2, 1024, 1, 16, 1⟩ 100 (1 / 2) 16384 ≠
      specFitness ⟨1 / 2, 1024, 1, 16, 1⟩ 100 (1 / 2) 16384 := by
  unfold DeploymentOptimizer.fitness specFitness
  norm_num [max_def]

/-- C5 (amended): the code's fitness returns `-1000` exactly on the stated
infeasibility condition, and on feasible candidates computes the spec's
formula with `resourceEfficiency = 1 - (cpu / max(maxCpu, 1)) * 0.3` (all
other subformulas as the claim states them). -/
theorem fitness_formula (config : Config) (t mc mm : ℚ) :
    DeploymentOptimizer.fitness config t mc mm =
      specFitnessAmended config t mc mm ∧
    (config.cpu_per_agent * (config.replicas : ℚ) > mc ∨
      config.memory_per_agent * (config.replicas : ℚ) > mm →
      DeploymentOptimizer.fitness config t mc mm = -1000) := by
  constructor
  · unfold DeploymentOptimizer.fitness specFitnessAmended
    dsimp only
    split
    · rfl
    · ring_nf
  · intro h
    unfold DeploymentOptimizer.fitness
    rw [if_pos h]

/-- Witness for `fitness_formula`: an infeasible concrete candidate. -/
theorem fitness_formula_witness :
    DeploymentOptimizer.fitness ⟨1, 256, 2, 8, 1⟩ 100 1 16384 =
      specFitnessAmended ⟨1, 256, 2, 8, 1⟩ 100 1 16384 ∧
    DeploymentOptimizer.fitness ⟨1, 256, 2, 8, 1⟩ 100 1 16384 = -1000 :=
  ⟨(fitness_formula ⟨1, 256, 2, 8, 1⟩ 100 1 16384).1,
   (fitness_formula ⟨1, 256, 2, 8, 1⟩ 100 1 16384).2 (by norm_num)⟩

/-! ### Claim C8: unloaded capabilities predict through the fallback -/

/-- C8: for each capability kind dispatching on load state, when `is_loaded`
is false the prediction endpoint computes its result by the deterministic
fallback applied directly to the raw request input (for the regulatory kind:
the raw ids wrapped with the default frequency/severity rows), and the
response is independent of the feature-extraction and trained-prediction
collaborators — the external learner is never consulted.  The drift conjunct
carries the constructible-state invariant `DriftDetector.consistent`
(dispatch there reads `self.model`, which the invariant ties to the flag). -/
theorem unloaded_predicts_via_fallback :
    (∀ (ef1 ef2 : List Rec → Except String Feats)
        (pt1 pt2 : Blob → Feats → Except String (List Pred))
        (fb : List Rec → List Pred) (m : ComplianceGapModel) (data : List Rec),
      m.is_loaded = false → data ≠ [] →
      predict_compliance_gaps ef1 pt1 fb m data =
        { recommendations := fb data, model_version := m.version } ∧
      predict_compliance_gaps ef1 pt1 fb m data =
        predict_compliance_gaps ef2 pt2 fb m data) ∧
    (∀ (pt1 pt2 : Blob → List String → Except String (List Pred))
        (fb : List RegRow → List Pred) (m : RegulatoryPredictor)
        (ids : List String),
      m.is_loaded = false → ids ≠ [] →
      predict_regulatory_changes pt1 fb m ids =
        { predictions := fb (ids.map wrapRegulationId),
          model_version := m.version } ∧
      predict_regulatory_changes pt1 fb m ids =
        predict_regulatory_changes pt2 fb m ids) ∧
    (∀ (ip1 ip2 : Blob → Rec → Pred) (fb : Option StatsBlob → Rec → Pred)
        (d : DriftDetector) (data : Rec),
      d.consistent → d.is_loaded = false →
      predict_drift_analysis ip1 fb d data = fb d.stats data ∧
      predict_drift_analysis ip1 fb d data =
        predict_drift_analysis ip2 fb d data) := by
  refine ⟨?_, ?_, ?_⟩
  · intro ef1 ef2 pt1 pt2 fb m data hm hd
    cases data with
    | nil => exact absurd rfl hd
    | cons r rest =>
      constructor <;>
        simp [predict_compliance_gaps, hm]
  · intro pt1 pt2 fb m ids hm hd
    cases ids with
    | nil => exact absurd rfl hd
    | cons r rest =>
      constructor <;>
        simp [predict_regulatory_changes, hm]
  · intro ip1 ip2 fb d data hcons hload
    have hmodel : d.model = none := hcons hload
    constructor <;>
      simp [predict_drift_analysis, DriftDetector.detect, hmodel]

/-- Witness for `unloaded_predicts_via_fallback`: a freshly initialized
compliance capability routes a nonempty request through the fallback. -/
theorem unloaded_predicts_via_fallback_witness :
    predict_compliance_gaps (fun _ => Except.ok 0) (fun _ _ => Except.ok [])
      (fun _ => [5]) ComplianceGapModel.init [0] =
      { recommendations := [5], model_version := "1.0.0" } :=
  (unloaded_predicts_via_fallback.1 (fun _ => Except.ok 0)
    (fun _ => Except.ok 0) (fun _ _ => Except.ok []) (fun _ _ => Except.ok [])
    (fun _ => [5]) ComplianceGapModel.init [0] rfl (by decide)).1

/-- Witness for `driftDetector_not_reloadable`: saving a freshly trained
drift detector into the empty store and loading it back by exact version
yields none, and hydration from that store keeps the default instance. -/
theorem driftDetector_not_reloadable_witness :
    load_model (save_model ([] : Store)
        (.drift { model := some 7, version := "1.0.0", is_loaded := true,
                  metrics := [], stats := some 3 })
        "drift-detector" "1.0.0" []).1 "drift-detector" "1.0.0" = .ok none ∧
    lifespanDrift (save_model ([] : Store)
        (.drift { model := some 7, version := "1.0.0", is_loaded := true,
                  metrics := [], stats := some 3 })
        "drift-detector" "1.0.0" []).1 DriftDetector.init =
      .ok DriftDetector.init := by
  constructor
  · exact driftDetector_not_reloadable.1 [] _ "1.0.0" [] (by decide)
  · refine driftDetector_not_reloadable.2.2.1 _ ?_ DriftDetector.init
    exact driftDetector_not_reloadable.2.2.2 [] _ "1.0.0" []
      (by intro v dir hdir; simp [storeDir, alistFind] at hdir)

end AgentFoundry
